import Mathlib

/-!
Verification development for `fpocketR_parser.py`, a post-processing wrapper
around an external pocket-detection tool.  The script's text processing is
shallowly embedded here: Python floats are modelled as rationals `ℚ`,
Python strings as Lean `String` (processed through their underlying
`List Char`), fallible Python code as `Except PyError`.  The filesystem
state read by `get_best_pockets` is modelled by the structure `FS`.
-/

deriving instance DecidableEq for Except

namespace FpocketR

/-- Kinds of Python exceptions the embedded code can raise. -/
inductive PyError where
  | indexError
  | valueError
deriving DecidableEq

/-- Character for a single decimal digit `d` (meaningful for `d < 10`). -/
def digChar (d : ℕ) : Char := Char.ofNat (48 + d)

/-- Big-endian decimal digits of `n`, empty for `n = 0`; `fuel` bounds the
recursion (any `fuel ≥ n` is enough). -/
def renderNatAux : ℕ → ℕ → List Char
  | 0, _ => []
  | fuel + 1, n => if n = 0 then [] else renderNatAux fuel (n / 10) ++ [digChar (n % 10)]

/-- Decimal rendering of a natural number, as Python `str` produces it. -/
def renderNat (n : ℕ) : List Char := if n = 0 then ['0'] else renderNatAux n n

/-- Decimal rendering of an integer, as Python `str` / `%d` produce it. -/
def renderInt (n : ℤ) : List Char :=
  (if n < 0 then ['-'] else []) ++ renderNat n.natAbs

/-- One step of reading a decimal numeral: shift the accumulator and add the
digit value of `c`. -/
def readStep (a : ℕ) (c : Char) : ℕ := 10 * a + (c.toNat - 48)

/-- Value of a big-endian string of decimal digits. -/
def readNat (cs : List Char) : ℕ := cs.foldl readStep 0

/-- Model of Python `int(str)`: optional sign followed by decimal digits
(surrounding spaces stripped). -/
def parseIntChars (cs : List Char) : Option ℤ :=
  match cs.dropWhile (· = ' ') with
  | c :: rest =>
    if c = '-' then
      if rest ≠ [] ∧ rest.all Char.isDigit then some (-(readNat rest : ℤ)) else none
    else if c = '+' then
      if rest ≠ [] ∧ rest.all Char.isDigit then some ((readNat rest : ℤ)) else none
    else
      if (c :: rest).all Char.isDigit then some ((readNat (c :: rest) : ℤ)) else none
  | [] => none

/-- Model of Python `float(str)` on an unsigned decimal literal: integer
digits, then optionally a point and fractional digits. -/
def parseUFloatChars (cs : List Char) : Option ℚ :=
  let ip := cs.takeWhile Char.isDigit
  match cs.dropWhile Char.isDigit with
  | [] => if ip = [] then none else some ((readNat ip : ℚ))
  | c :: fr =>
    if c = '.' then
      if ip = [] ∧ fr = [] then none
      else if fr.all Char.isDigit then
        some ((readNat ip : ℚ) + (readNat fr : ℚ) / (10 : ℚ) ^ fr.length)
      else none
    else none

/-- Model of Python `float(str)`: optional sign in front of an unsigned
decimal literal, leading spaces stripped. -/
def parseFloatChars (cs : List Char) : Option ℚ :=
  match cs.dropWhile (· = ' ') with
  | [] => none
  | c :: rest =>
    if c = '-' then (parseUFloatChars rest).map (fun q => -q)
    else if c = '+' then parseUFloatChars rest
    else parseUFloatChars (c :: rest)

/-- Round a rational to the nearest integer, ties to the even integer; this is
the rounding Python's `format` applies to the scaled value. -/
def roundHalfEven (q : ℚ) : ℤ :=
  if q - (⌊q⌋ : ℚ) < 1 / 2 then ⌊q⌋
  else if 1 / 2 < q - (⌊q⌋ : ℚ) then ⌊q⌋ + 1
  else if ⌊q⌋ % 2 = 0 then ⌊q⌋ else ⌊q⌋ + 1

/-- Exactly three decimal digits of `m < 1000`, with leading zeros: the
fractional part Python's `"%.3f"` prints. -/
def pad3 (m : ℕ) : List Char := [digChar (m / 100 % 10), digChar (m / 10 % 10), digChar (m % 10)]

/-- Model of Python `f"{x:.3f}"`: sign, integer part, point, and exactly three
fractional digits of the value rounded to thousandths. -/
def fmt3Chars (q : ℚ) : List Char :=
  (if q < 0 then ['-'] else []) ++
    renderNat ((roundHalfEven (q * 1000)).natAbs / 1000) ++
    '.' :: pad3 ((roundHalfEven (q * 1000)).natAbs % 1000)

/-- Left-pad with spaces to width `w`, as Python's width specifier in
`f"{v:8.3f}"` or `f"{n:5d}"` does for right-aligned fields. -/
def padLeft (w : ℕ) (cs : List Char) : List Char :=
  List.replicate (w - cs.length) ' ' ++ cs

/-- Accumulating worker for whitespace splitting: `acc` holds the reversed
current token. -/
def wordsAux : List Char → List Char → List (List Char)
  | [], acc => if acc = [] then [] else [acc.reverse]
  | c :: rest, acc =>
    if c.isWhitespace then
      if acc = [] then wordsAux rest [] else acc.reverse :: wordsAux rest []
    else wordsAux rest (c :: acc)

/-- Model of Python `line.split()`: split on runs of whitespace, dropping
empty tokens. -/
def pySplit (line : String) : List (List Char) := wordsAux line.data []

/-- Model of Python `line.split(',')`: split at every comma, keeping empty
pieces. -/
def splitComma : List Char → List (List Char)
  | [] => [[]]
  | c :: rest =>
    if c = ',' then [] :: splitComma rest
    else
      match splitComma rest with
      | [] => [[c]]
      | g :: gs => (c :: g) :: gs

/-- Model of Python `s.strip()`: drop whitespace from both ends. -/
def pyStripChars (cs : List Char) : List Char :=
  ((cs.dropWhile Char.isWhitespace).reverse.dropWhile Char.isWhitespace).reverse

/-- Model of `line.startswith('ATOM')` from `parse_pqr`. -/
def startsWithATOM (line : String) : Bool := "ATOM".data.isPrefixOf line.data

/-- One row of the characteristics table as `get_best_pockets` reads it:
the `Pocket`, `Score`, `Drug score`, `SASA` and `Volume` columns. -/
structure PocketRecord where
  pocket : ℚ
  score : ℚ
  drugScore : ℚ
  sasa : ℚ
  volume : ℚ
deriving DecidableEq

/-- The four metrics `get_best_pockets` ranks pockets by, in the insertion
order of its `pockets` dictionary. -/
inductive Metric where
  | score
  | drug_score
  | sasa
  | volume
deriving DecidableEq

/-- The column of the characteristics table belonging to a metric. -/
def metricCol : Metric → PocketRecord → ℚ
  | .score => PocketRecord.score
  | .drug_score => PocketRecord.drugScore
  | .sasa => PocketRecord.sasa
  | .volume => PocketRecord.volume

/-- The key of the `pockets` dictionary for a metric, used in the output
file names `{metric}_median.csv` and `{metric}_mean.csv`. -/
def Metric.name : Metric → String
  | .score => "score"
  | .drug_score => "drug_score"
  | .sasa => "sasa"
  | .volume => "volume"

/-- Worker for pandas `Series.idxmax`: fold over the remaining values
keeping the first-occurring maximum seen so far (index and value); `i` is the
absolute index of the head of the remaining list. -/
def idxmaxGo : List ℚ → ℕ × ℚ → ℕ → ℕ × ℚ
  | [], best, _ => best
  | v :: vs, best, i => if best.2 < v then idxmaxGo vs (i, v) (i + 1) else idxmaxGo vs best (i + 1)

/-- Model of pandas `Series.idxmax` on a positionally indexed column: the
index of the first occurrence of the maximum value; pandas raises on an
empty series, modelled by `none`. -/
def idxmax : List ℚ → Option ℕ
  | [] => none
  | v :: vs => some (idxmaxGo vs (0, v) 1).1

/-- Model of `relevant_data.loc[relevant_data[col].idxmax()]['Pocket']`: the
`Pocket` value of the row at the argmax index of the metric's column. -/
def bestPocket (table : List PocketRecord) (m : Metric) : Option ℚ :=
  (idxmax (table.map (metricCol m))).bind fun i => (table[i]?).map PocketRecord.pocket

/-- One geometry record of `parse_pqr`: `[pocket_number, x, y, z]`. -/
structure PocketAtom where
  pocket_number : ℤ
  x : ℚ
  y : ℚ
  z : ℚ
deriving DecidableEq

/-- Parsing of one line by `parse_pqr`'s loop body: `none` for a line that
does not start with the marker, a parsed atom otherwise; the fields are read
in Python's evaluation order `parts[5]`, `parts[6]`, `parts[7]` (as floats),
then `parts[4]` (as int), so a missing index raises `indexError` and a failed
conversion raises `valueError`. -/
def parseAtomLine (line : String) : Except PyError (Option PocketAtom) :=
  if startsWithATOM line then
    match (pySplit line)[5]? with
    | none => .error .indexError
    | some p5 =>
      match parseFloatChars p5 with
      | none => .error .valueError
      | some x =>
        match (pySplit line)[6]? with
        | none => .error .indexError
        | some p6 =>
          match parseFloatChars p6 with
          | none => .error .valueError
          | some y =>
            match (pySplit line)[7]? with
            | none => .error .indexError
            | some p7 =>
              match parseFloatChars p7 with
              | none => .error .valueError
              | some z =>
                match (pySplit line)[4]? with
                | none => .error .indexError
                | some p4 =>
                  match parseIntChars p4 with
                  | none => .error .valueError
                  | some pn => .ok (some ⟨pn, x, y, z⟩)
  else .ok none

/-- Model of `parse_pqr`, line 110-120 of the script: collect the records of
all marker-prefixed lines, propagating the first exception. -/
def parse_pqr : List String → Except PyError (List PocketAtom)
  | [] => .ok []
  | line :: rest =>
    match parseAtomLine line with
    | .error e => .error e
    | .ok none => parse_pqr rest
    | .ok (some a) => (parse_pqr rest).map (fun atoms => a :: atoms)

/-- Insert into a sorted list of rationals. -/
def insertSorted (a : ℚ) : List ℚ → List ℚ
  | [] => [a]
  | b :: t => if a ≤ b then a :: b :: t else b :: insertSorted a t

/-- Insertion sort of rationals, used to model pandas' median. -/
def sortQ : List ℚ → List ℚ
  | [] => []
  | a :: t => insertSorted a (sortQ t)

/-- Model of a pandas column median: middle of the sorted values, average of
the two middles for even length, `none` (NaN) for an empty column. -/
def medianQ (l : List ℚ) : Option ℚ :=
  if l.length = 0 then none
  else if l.length % 2 = 1 then (sortQ l)[l.length / 2]?
  else
    match (sortQ l)[l.length / 2 - 1]?, (sortQ l)[l.length / 2]? with
    | some a, some b => some ((a + b) / 2)
    | _, _ => none

/-- Model of a pandas column mean: sum over length, `none` (NaN) for an
empty column. -/
def meanQ (l : List ℚ) : Option ℚ :=
  if l.length = 0 then none else some (l.sum / (l.length : ℚ))

/-- One row of a pandas frame whose entries may be NaN (`none`), as produced
by `df.median().to_frame().T` or `df.mean().to_frame().T`. -/
structure RawRow where
  pocket_number : Option ℚ
  x : Option ℚ
  y : Option ℚ
  z : Option ℚ
deriving DecidableEq

/-- The row of per-column medians of a parsed geometry table. -/
def colMedians (atoms : List PocketAtom) : RawRow :=
  { pocket_number := medianQ (atoms.map (fun a => (a.pocket_number : ℚ)))
    x := medianQ (atoms.map PocketAtom.x)
    y := medianQ (atoms.map PocketAtom.y)
    z := medianQ (atoms.map PocketAtom.z) }

/-- The row of per-column means of a parsed geometry table. -/
def colMeans (atoms : List PocketAtom) : RawRow :=
  { pocket_number := meanQ (atoms.map (fun a => (a.pocket_number : ℚ)))
    x := meanQ (atoms.map PocketAtom.x)
    y := meanQ (atoms.map PocketAtom.y)
    z := meanQ (atoms.map PocketAtom.z) }

/-- Model of `.to_frame().T` on a series: a data frame with exactly the one
row. -/
def seriesToFrameT (r : RawRow) : List RawRow := [r]

/-- Model of Python `int(float)`: truncation toward zero. -/
def truncQ (q : ℚ) : ℤ := if 0 ≤ q then ⌊q⌋ else ⌈q⌉

/-- A row after `format_dataframe`: the pocket identifier coerced to an
integer, the float columns rendered as `"%.3f"` strings. -/
structure FormattedRow where
  pocket_number : ℤ
  x : String
  y : String
  z : String
deriving DecidableEq

/-- Rendering of one float cell by `format_dataframe`: NaN prints as `nan`,
otherwise `f"{x:.3f}"`. -/
def fmtOpt : Option ℚ → String
  | none => "nan"
  | some q => ⟨fmt3Chars q⟩

/-- `format_dataframe` on one row: `astype(int)` on the pocket-number cell
raises a `ValueError` on NaN (the pandas error for non-finite values),
otherwise truncates; float cells are formatted to three decimals. -/
def formatRow (r : RawRow) : Except PyError FormattedRow :=
  match r.pocket_number with
  | none => .error .valueError
  | some q => .ok { pocket_number := truncQ q, x := fmtOpt r.x, y := fmtOpt r.y, z := fmtOpt r.z }

/-- Model of `format_dataframe`, lines 103-108 of the script, applied to each
row of the frame. -/
def format_dataframe : List RawRow → Except PyError (List FormattedRow)
  | [] => .ok []
  | r :: rest =>
    match formatRow r with
    | .error e => .error e
    | .ok fr => (format_dataframe rest).map (fun frs => fr :: frs)

/-- The text of a one-row pocket CSV produced by `to_csv(index=False)`:
header line and the single data row. -/
def rowLine (fr : FormattedRow) : String :=
  ⟨renderInt fr.pocket_number ++ ',' :: fr.x.data ++
    ',' :: fr.y.data ++ ',' :: fr.z.data⟩

/-- The lines written by `to_csv(index=False)` for a one-row frame. -/
def csvLines (fr : FormattedRow) : List String := ["pocket_number,x,y,z", rowLine fr]

/-- The filesystem state `get_best_pockets` reads: whether the target
directory exists, the parsed contents of the files matching
`*characteristics.csv` (in glob order), and the geometry files present in the
`pockets` directory, keyed by the pocket identifier `n` of their name
`pocket{n}_vert.pqr`, each one a list of text lines. -/
structure FS where
  targetDirExists : Bool
  charFiles : List (List PocketRecord)
  pqrFiles : List (ℤ × List String)

/-- Lookup of the geometry file `pocket{id}_vert.pqr`, modelling
`os.path.exists` plus the later `open`. -/
def lookupPqr (files : List (ℤ × List String)) (id : ℤ) : Option (List String) :=
  (files.find? (fun p => p.1 = id)).map Prod.snd

/-- Result of `get_best_pockets`: the two early returns, or the results
dictionary together with the list of written CSV files (name and lines, in
write order). -/
inductive GBPOutcome where
  | dirMissing
  | noCsv
  | done (results : List (Metric × FormattedRow × FormattedRow))
      (written : List (String × List String))
deriving DecidableEq

/-- The per-metric loop of `get_best_pockets` (lines 92-100): skip a metric
whose geometry file is absent, otherwise parse it, aggregate, format, record
the results and write the two CSV files. -/
def gbpLoop (fs : FS) :
    List (Metric × ℚ) →
    Except PyError (List (Metric × FormattedRow × FormattedRow) × List (String × List String))
  | [] => .ok ([], [])
  | (m, pocket) :: rest =>
    match lookupPqr fs.pqrFiles (truncQ pocket) with
    | none => gbpLoop fs rest
    | some lines =>
      match parse_pqr lines with
      | .error e => .error e
      | .ok atoms =>
        match format_dataframe (seriesToFrameT (colMedians atoms)) with
        | .error e => .error e
        | .ok medRows =>
          match format_dataframe (seriesToFrameT (colMeans atoms)) with
          | .error e => .error e
          | .ok meanRows =>
            match medRows, meanRows with
            | [med], [mean] =>
              match gbpLoop fs rest with
              | .error e => .error e
              | .ok (res, wr) =>
                .ok ((m, med, mean) :: res,
                  (Metric.name m ++ "_median.csv", csvLines med) ::
                    (Metric.name m ++ "_mean.csv", csvLines mean) :: wr)
            | _, _ => .error .valueError

/-- Model of `get_best_pockets`, lines 67-101 of the script: early returns
for a missing directory or a missing characteristics CSV, the four `idxmax`
selections (a pandas error on an empty table, modelled as `valueError`), then
the per-metric loop. -/
def get_best_pockets (fs : FS) : Except PyError GBPOutcome :=
  if fs.targetDirExists = false then .ok .dirMissing
  else
    match fs.charFiles with
    | [] => .ok .noCsv
    | table :: _ =>
      match bestPocket table .score, bestPocket table .drug_score,
          bestPocket table .sasa, bestPocket table .volume with
      | some ps, some pd, some pa, some pv =>
        match gbpLoop fs [(.score, ps), (.drug_score, pd), (.sasa, pa), (.volume, pv)] with
        | .error e => .error e
        | .ok (res, wr) => .ok (.done res wr)
      | _, _, _, _ => .error .valueError

/-- The files written by a `get_best_pockets` outcome (none on the early
returns or on an exception). -/
def gbpWritten : Except PyError GBPOutcome → List (String × List String)
  | .ok (.done _ wr) => wr
  | _ => []

/-- The results dictionary of a `get_best_pockets` outcome (empty on the
early returns or on an exception). -/
def gbpResults : Except PyError GBPOutcome → List (Metric × FormattedRow × FormattedRow)
  | .ok (.done res _) => res
  | _ => []

/-- Whether a `get_best_pockets` outcome aborts the run by propagating an
exception (the script installs no handler around the call). -/
def gbpAborts : Except PyError GBPOutcome → Bool
  | .error _ => true
  | .ok _ => false

/-- Substring test on character lists, modelling Python's `in` on strings. -/
def hasSubstr : List Char → List Char → Bool
  | [], needle => needle.isEmpty
  | c :: rest, needle => needle.isPrefixOf (c :: rest) || hasSubstr rest needle

/-- The sentinel text `run_fpocketR` scans the tool output for. -/
def noPocketsSentinel : String := "No Pockets Found"

/-- Whether a captured output stream contains the sentinel text. -/
def containsSentinel (s : String) : Bool := hasSubstr s.data noPocketsSentinel.data

/-- The environment `run_fpocketR` observes: whether a conda executable was
found, whether `subprocess.run` raised `CalledProcessError`, and the captured
stdout and stderr of the tool. -/
structure ToolEnv where
  condaFound : Bool
  raisesCalledProcessError : Bool
  stdout : String
  stderr : String

/-- Model of `run_fpocketR`, lines 45-65 of the script: `none` when no conda
executable is found or the subprocess call raises, `some false` when the
sentinel text appears in stdout or stderr, `some true` otherwise. -/
def run_fpocketR (env : ToolEnv) : Option Bool :=
  if env.condaFound = false then none
  else if env.raisesCalledProcessError then none
  else if containsSentinel env.stdout || containsSentinel env.stderr then some false
  else some true

/-- Observable outcome of the `__main__` block's failure handling: the
process exit code and whether the `fpocket-R` working directory was removed
on the failure path. -/
structure MainOutcome where
  exitCode : ℕ
  workDirRemoved : Bool
deriving DecidableEq

/-- Everything the `__main__` block observes: the environment of the tool
invocation, the filesystem state read by `get_best_pockets`, and the
exception, if any, raised by the remaining packaging steps
(`move_and_compress_files` and `csv_to_pdb`, lines 246-247, whose outcome
depends on filesystem state outside `FS` — for example `os.remove` of a
missing `{name}_clean.pdb` at line 164 raises), abstracted as an
`Option PyError`. -/
structure MainEnv where
  tool : ToolEnv
  fs : FS
  packagingError : Option PyError

/-- Model of the `__main__` block, lines 228-247: exit code 2 with the
working directory removed (`shutil.rmtree`, errors ignored) when
`run_fpocketR` returns `None` or `False`; otherwise the pipeline runs
`get_best_pockets` and then the packaging steps with no exception handler,
so the interpreter exits with code 1 when either raises, and the script
terminates with exit code 0 only when both complete.  `workDirRemoved`
records whether the failure-path `shutil.rmtree("fpocket-R",
ignore_errors=True)` of lines 232/237 ran. -/
def mainEntry (env : MainEnv) : MainOutcome :=
  match run_fpocketR env.tool with
  | none => { exitCode := 2, workDirRemoved := true }
  | some false => { exitCode := 2, workDirRemoved := true }
  | some true =>
    match get_best_pockets env.fs with
    | .error _ => { exitCode := 1, workDirRemoved := false }
    | .ok _ =>
      match env.packagingError with
      | some _ => { exitCode := 1, workDirRemoved := false }
      | none => { exitCode := 0, workDirRemoved := false }

/-- The fixed-column HETATM record `csv_to_pdb` writes for one coordinate
row: `f"HETATM{int(pn):5d}  XE  PCK A   1    {x:8.3f}{y:8.3f}{z:8.3f}  1.00
96.24           Xe\n"`. -/
def hetatmChars (n : ℤ) (x y z : ℚ) : List Char :=
  "HETATM".data ++ padLeft 5 (renderInt n) ++ "  XE  PCK A   1    ".data ++
    padLeft 8 (fmt3Chars x) ++ padLeft 8 (fmt3Chars y) ++ padLeft 8 (fmt3Chars z) ++
    "  1.00 96.24           Xe\n".data

/-- The HETATM record as a string. -/
def hetatmLine (n : ℤ) (x y z : ℚ) : String := ⟨hetatmChars n x y z⟩

/-- Model of the loop body of `csv_to_pdb`, lines 191-194 of the script: strip
the CSV line, split it at commas into exactly four fields (Python unpacking
raises otherwise), convert them with `int` and `float`, and emit the fixed
column HETATM record. -/
def csv_to_pdb_line (line : String) : Except PyError String :=
  match splitComma (pyStripChars line.data) with
  | [pn, xs, ys, zs] =>
    match parseIntChars pn, parseFloatChars xs, parseFloatChars ys, parseFloatChars zs with
    | some n, some x, some y, some z => .ok (hetatmLine n x y z)
    | _, _, _, _ => .error .valueError
  | _ => .error .valueError

/-- The three eight-column coordinate fields of a HETATM record, at character
columns 31-38, 39-46 and 47-54 (0-based offsets 30, 38, 46). -/
def pdbCoordFields (line : String) : List Char × List Char × List Char :=
  ((line.data.drop 30).take 8, (line.data.drop 38).take 8, (line.data.drop 46).take 8)

/-- The CSV data row `{pn},{x:.3f},{y:.3f},{z:.3f}` for a pocket identifier
and coordinates in thousandths, as the aggregated CSVs contain it. -/
def mkCsvRow (pn kx ky kz : ℤ) : String :=
  ⟨renderInt pn ++ ',' :: fmt3Chars ((kx : ℚ) / 1000) ++
    ',' :: fmt3Chars ((ky : ℚ) / 1000) ++
    ',' :: fmt3Chars ((kz : ℚ) / 1000)⟩

/-- An eight-token geometry line `ATOM 1 C POL {pn} {x:.3f} {y:.3f} {z:.3f}`
for a pocket identifier and coordinates in thousandths. -/
def atomLineOf (pn kx ky kz : ℤ) : String :=
  ⟨"ATOM 1 C POL ".data ++ renderInt pn ++ ' ' :: fmt3Chars ((kx : ℚ) / 1000) ++
    ' ' :: fmt3Chars ((ky : ℚ) / 1000) ++
    ' ' :: fmt3Chars ((kz : ℚ) / 1000)⟩

/-- Spec-side predicate: `i` is the position of the first occurrence of the
maximum of `vals`. -/
def IsFirstMaxIdx (vals : List ℚ) (i : ℕ) (v : ℚ) : Prop :=
  vals[i]? = some v ∧ (∀ w ∈ vals, w ≤ v) ∧ ∀ w ∈ vals.take i, w < v

/-- Spec-side predicate: the string consists of some prefix, a decimal point,
and exactly three decimal digits — the shape of a `"%.3f"` value. -/
def ThreeDecimalString (s : String) : Prop :=
  ∃ u v, s.data = u ++ '.' :: v ∧ v.length = 3 ∧ ∀ c ∈ v, c.isDigit = true

/-- Decidable check that a geometry file parses to a nonempty table, used to
state hypotheses evaluable on concrete inputs. -/
def parsesNonempty (lines : List String) : Bool :=
  match parse_pqr lines with
  | .ok (_ :: _) => true
  | _ => false

/-- A characteristics table with Score column `[1, 5, 3, 2]` and pocket
identifiers `1..4`, the end-to-end example of the specification. -/
def tableScores1532 : List PocketRecord :=
  [⟨1, 1, 0, 0, 0⟩, ⟨2, 5, 0, 0, 0⟩, ⟨3, 3, 0, 0, 0⟩, ⟨4, 2, 0, 0, 0⟩]

/-- A well-formed three-record geometry file for pocket 1, with distinct
median and mean. -/
def pqrLinesA : List String :=
  ["ATOM 1 C POL 1 1.500 2.000 3.250", "ATOM 2 C POL 1 2.500 3.000 4.750",
    "ATOM 3 C POL 1 9.000 8.000 7.500"]

/-- The parse of `pqrLinesA`. -/
def atomsA : List PocketAtom :=
  [⟨1, 3 / 2, 2, 13 / 4⟩, ⟨1, 5 / 2, 3, 19 / 4⟩, ⟨1, 9, 8, 15 / 2⟩]

/-- A filesystem with an existing target directory and no characteristics
CSV. -/
def fsNoCsv : FS := ⟨true, [], []⟩

/-- A filesystem with an existing target directory, no characteristics CSV,
but a geometry file present. -/
def fsNoCsvWithPqr : FS := ⟨true, [], [(1, pqrLinesA)]⟩

/-- A filesystem where all four metrics select pocket 1 and its geometry
file exists. -/
def fsAllPocket1 : FS := ⟨true, [[⟨1, 1, 1, 1, 1⟩]], [(1, pqrLinesA)]⟩

/-- A filesystem where the score metric selects pocket 1 (no geometry file)
and the other metrics select pocket 2 (geometry file present). -/
def fsScoreMissing : FS :=
  ⟨true, [[⟨1, 10, 1, 1, 1⟩, ⟨2, 1, 10, 10, 10⟩]], [(2, pqrLinesA)]⟩

/-- A filesystem whose selected pocket has a geometry file without a single
marker-prefixed line. -/
def fsEmptyPqr : FS := ⟨true, [[⟨1, 1, 1, 1, 1⟩]], [(1, ["REMARK nothing here"])]⟩

section Lemmas

theorem digChar_toNat {d : ℕ} (h : d < 10) : (digChar d).toNat = 48 + d := by
  interval_cases d <;> decide

theorem digChar_isDigit {d : ℕ} (h : d < 10) : (digChar d).isDigit = true := by
  interval_cases d <;> decide

theorem isDigit_ne_space {c : Char} (h : c.isDigit = true) : ¬ c = ' ' := by
  intro hc; subst hc; simp at h

theorem isDigit_ne_minus {c : Char} (h : c.isDigit = true) : ¬ c = '-' := by
  intro hc; subst hc; simp at h

theorem isDigit_ne_plus {c : Char} (h : c.isDigit = true) : ¬ c = '+' := by
  intro hc; subst hc; simp at h

theorem isDigit_ne_dot {c : Char} (h : c.isDigit = true) : ¬ c = '.' := by
  intro hc; subst hc; simp at h

theorem isDigit_ne_comma {c : Char} (h : c.isDigit = true) : ¬ c = ',' := by
  intro hc; subst hc; simp at h

theorem isDigit_not_ws {c : Char} (h : c.isDigit = true) : c.isWhitespace = false := by
  have h1 : ¬ c = ' ' := by intro hc; subst hc; exact absurd h (by decide)
  have h2 : ¬ c = Char.ofNat 9 := by intro hc; subst hc; exact absurd h (by decide)
  have h3 : ¬ c = Char.ofNat 13 := by intro hc; subst hc; exact absurd h (by decide)
  have h4 : ¬ c = Char.ofNat 10 := by intro hc; subst hc; exact absurd h (by decide)
  simp [Char.isWhitespace, h1, h2, h3, h4]

theorem renderNatAux_foldl (fuel : ℕ) :
    ∀ n a, n ≤ fuel →
      (renderNatAux fuel n).foldl readStep a = a * 10 ^ (renderNatAux fuel n).length + n := by
  induction fuel with
  | zero =>
    intro n a hn
    interval_cases n
    simp [renderNatAux]
  | succ fuel ih =>
    intro n a hn
    by_cases h0 : n = 0
    · subst h0; simp [renderNatAux]
    · have hdiv : n / 10 ≤ fuel := by
        have : n / 10 < n := Nat.div_lt_self (Nat.pos_of_ne_zero h0) (by omega)
        omega
      have hmod : n % 10 < 10 := Nat.mod_lt _ (by omega)
      simp only [renderNatAux, h0, if_false, List.foldl_append, List.length_append,
        List.foldl_cons, List.foldl_nil, List.length_cons, List.length_nil]
      rw [ih (n / 10) a hdiv]
      simp only [readStep, digChar_toNat hmod]
      have hrec := Nat.div_add_mod n 10
      ring_nf
      omega

theorem readNat_renderNat (n : ℕ) : readNat (renderNat n) = n := by
  by_cases h0 : n = 0
  · subst h0; decide
  · have := renderNatAux_foldl n n 0 le_rfl
    simp only [renderNat, h0, if_false, readNat]
    omega

theorem renderNatAux_digits (fuel : ℕ) :
    ∀ n c, c ∈ renderNatAux fuel n → c.isDigit = true := by
  induction fuel with
  | zero => intro n c hc; simp [renderNatAux] at hc
  | succ fuel ih =>
    intro n c hc
    by_cases h0 : n = 0
    · subst h0; simp [renderNatAux] at hc
    · simp only [renderNatAux, h0, if_false, List.mem_append, List.mem_singleton] at hc
      rcases hc with hc | hc
      · exact ih _ _ hc
      · subst hc; exact digChar_isDigit (Nat.mod_lt _ (by omega))

theorem renderNat_digits {n : ℕ} {c : Char} (hc : c ∈ renderNat n) : c.isDigit = true := by
  by_cases h0 : n = 0
  · subst h0; simp [renderNat] at hc; subst hc; decide
  · simp only [renderNat, h0, if_false] at hc
    exact renderNatAux_digits n n c hc

theorem renderNat_ne_nil (n : ℕ) : renderNat n ≠ [] := by
  by_cases h0 : n = 0
  · subst h0; simp [renderNat]
  · simp only [renderNat, h0, if_false]
    cases n with
    | zero => omega
    | succ m => simp [renderNatAux, h0]

theorem renderNatAux_length_le (fuel : ℕ) :
    ∀ n k, n < 10 ^ k → (renderNatAux fuel n).length ≤ k := by
  induction fuel with
  | zero => intro n k _; simp [renderNatAux]
  | succ fuel ih =>
    intro n k hk
    by_cases h0 : n = 0
    · subst h0; simp [renderNatAux]
    · cases k with
      | zero => simp at hk; omega
      | succ k =>
        have hdiv : n / 10 < 10 ^ k := by
          rw [Nat.div_lt_iff_lt_mul (by omega)]
          calc n < 10 ^ (k + 1) := hk
          _ = 10 ^ k * 10 := by ring
        simp only [renderNatAux, h0, if_false, List.length_append, List.length_cons,
          List.length_nil]
        have := ih (n / 10) k hdiv
        omega

theorem renderNat_length_le {n k : ℕ} (hk : 1 ≤ k) (h : n < 10 ^ k) :
    (renderNat n).length ≤ k := by
  by_cases h0 : n = 0
  · subst h0; simpa [renderNat] using hk
  · simp only [renderNat, h0, if_false]
    exact renderNatAux_length_le n n k h

theorem dropWhile_space_cons {c : Char} {cs : List Char} (h : ¬ c = ' ') :
    (c :: cs).dropWhile (· = ' ') = c :: cs := by
  simp [List.dropWhile_cons, h]

theorem dropWhile_space_replicate (k : ℕ) (cs : List Char) :
    (List.replicate k ' ' ++ cs).dropWhile (· = ' ') =
      cs.dropWhile (· = ' ') := by
  induction k with
  | zero => simp
  | succ k ih => simp [List.replicate_succ, List.dropWhile_cons, ih]

theorem parseIntChars_renderInt (n : ℤ) : parseIntChars (renderInt n) = some n := by
  cases hrn : renderNat n.natAbs with
  | nil => exact absurd hrn (renderNat_ne_nil n.natAbs)
  | cons c cs =>
    have hcdig : c.isDigit = true := renderNat_digits (by rw [hrn]; exact List.mem_cons_self c cs)
    have halldig : (c :: cs).all Char.isDigit = true := by
      rw [← hrn]; simp only [List.all_eq_true]
      intro x hx; exact renderNat_digits hx
    have hval : readNat (c :: cs) = n.natAbs := by rw [← hrn, readNat_renderNat]
    by_cases hneg : n < 0
    · have hrend : renderInt n = '-' :: (c :: cs) := by
        simp [renderInt, hneg, hrn]
      rw [hrend, parseIntChars, dropWhile_space_cons (by decide)]
      simp only [if_pos rfl, ne_eq, reduceCtorEq, not_false_iff, halldig, and_self, if_true,
        hval, Option.some.injEq]
      omega
    · have hrend : renderInt n = c :: cs := by
        simp [renderInt, hneg, hrn]
      rw [hrend, parseIntChars, dropWhile_space_cons (isDigit_ne_space hcdig)]
      simp only [isDigit_ne_minus hcdig, if_false, isDigit_ne_plus hcdig, halldig, if_true,
        hval, Option.some.injEq]
      omega

theorem takeWhile_digits_append {u : List Char} (v : List Char)
    (hu : ∀ c ∈ u, c.isDigit = true) :
    (u ++ '.' :: v).takeWhile Char.isDigit = u ∧
      (u ++ '.' :: v).dropWhile Char.isDigit = '.' :: v := by
  induction u with
  | nil => simp [List.takeWhile_cons, List.dropWhile_cons]
  | cons c cs ih =>
    have hc : c.isDigit = true := hu c (List.mem_cons_self c cs)
    have ihr := ih (fun x hx => hu x (List.mem_cons_of_mem c hx))
    simp [List.takeWhile_cons, List.dropWhile_cons, hc, ihr.1, ihr.2]

theorem readNat_pad3 {m : ℕ} (h : m < 1000) : readNat (pad3 m) = m := by
  have h1 : m / 100 % 10 < 10 := Nat.mod_lt _ (by omega)
  have h2 : m / 10 % 10 < 10 := Nat.mod_lt _ (by omega)
  have h3 : m % 10 < 10 := Nat.mod_lt _ (by omega)
  simp only [readNat, pad3, List.foldl_cons, List.foldl_nil, readStep,
    digChar_toNat h1, digChar_toNat h2, digChar_toNat h3]
  omega

theorem pad3_digits {m : ℕ} {c : Char} (hc : c ∈ pad3 m) : c.isDigit = true := by
  simp only [pad3, List.mem_cons, List.not_mem_nil, or_false] at hc
  rcases hc with hc | hc | hc <;> subst hc <;>
    exact digChar_isDigit (Nat.mod_lt _ (by omega))

theorem roundHalfEven_intCast (k : ℤ) : roundHalfEven ((k : ℚ)) = k := by
  have hf : ⌊(k : ℚ)⌋ = k := Int.floor_intCast k
  simp only [roundHalfEven, hf, sub_self]
  rw [if_pos (by norm_num)]

theorem parseUFloat_fmt (I F : ℕ) (hF : F < 1000) :
    parseUFloatChars (renderNat I ++ '.' :: pad3 F) =
      some ((I : ℚ) + (F : ℚ) / 1000) := by
  have htw := takeWhile_digits_append (u := renderNat I) (pad3 F)
    (fun c hc => renderNat_digits hc)
  rw [parseUFloatChars]
  simp only [htw.1, htw.2]
  rw [if_pos trivial]
  rw [if_neg (by simp [renderNat_ne_nil I])]
  rw [if_pos (by simp only [List.all_eq_true]; intro c hc; exact pad3_digits hc)]
  rw [readNat_renderNat, readNat_pad3 hF]
  norm_num [pad3]

theorem fmt3Chars_thousandths (k : ℤ) :
    fmt3Chars ((k : ℚ) / 1000) =
      (if k < 0 then ['-'] else []) ++ renderNat (k.natAbs / 1000) ++
        '.' :: pad3 (k.natAbs % 1000) := by
  have hmul : ((k : ℚ) / 1000) * 1000 = (k : ℚ) := by
    field_simp
  have hsign : ((k : ℚ) / 1000 < 0) ↔ (k < 0) := by
    rw [div_lt_iff₀ (by norm_num : (0:ℚ) < 1000)]
    simp
  rw [fmt3Chars, hmul, roundHalfEven_intCast]
  by_cases h : k < 0
  · rw [if_pos (hsign.mpr h), if_pos h]
  · rw [if_neg (fun hc => h (hsign.mp hc)), if_neg h]

theorem parseFloatChars_neg (cs : List Char) :
    parseFloatChars ('-' :: cs) = (parseUFloatChars cs).map (fun q => -q) := by
  rw [parseFloatChars, dropWhile_space_cons (show ¬ '-' = ' ' by decide)]
  rfl

theorem parseFloatChars_digit {c : Char} (cs : List Char) (hc : c.isDigit = true) :
    parseFloatChars (c :: cs) = parseUFloatChars (c :: cs) := by
  rw [parseFloatChars, dropWhile_space_cons (isDigit_ne_space hc)]
  show (if c = '-' then Option.map (fun q => -q) (parseUFloatChars cs)
    else if c = '+' then parseUFloatChars cs else parseUFloatChars (c :: cs)) =
      parseUFloatChars (c :: cs)
  rw [if_neg (isDigit_ne_minus hc), if_neg (isDigit_ne_plus hc)]

theorem parseFloat_fmt3 (k : ℤ) :
    parseFloatChars (fmt3Chars ((k : ℚ) / 1000)) = some ((k : ℚ) / 1000) := by
  have hval : ((k.natAbs / 1000 : ℕ) : ℚ) + ((k.natAbs % 1000 : ℕ) : ℚ) / 1000 =
      ((k.natAbs : ℤ) : ℚ) / 1000 := by
    have hdm : (1000 : ℕ) * (k.natAbs / 1000) + k.natAbs % 1000 = k.natAbs :=
      Nat.div_add_mod _ _
    have hq : ((k.natAbs : ℤ) : ℚ) = ((1000 * (k.natAbs / 1000) + k.natAbs % 1000 : ℕ) : ℚ) := by
      rw [hdm]
      push_cast
      rw [Int.cast_natAbs, Int.cast_abs]
    rw [hq]
    push_cast
    ring
  rw [fmt3Chars_thousandths]
  by_cases hneg : k < 0
  · rw [if_pos hneg, List.singleton_append, List.cons_append, parseFloatChars_neg]
    rw [parseUFloat_fmt _ _ (Nat.mod_lt _ (by omega))]
    rw [Option.map_some']
    congr 1
    rw [hval]
    have habs : ((k.natAbs : ℤ) : ℚ) = -(k : ℚ) := by
      have h : (k.natAbs : ℤ) = -k := by omega
      rw [h]
      push_cast
      ring
    rw [habs]
    ring
  · rw [if_neg hneg, List.nil_append]
    cases hrn : renderNat (k.natAbs / 1000) with
    | nil => exact absurd hrn (renderNat_ne_nil _)
    | cons c cs =>
      have hcdig : c.isDigit = true :=
        renderNat_digits (by rw [hrn]; exact List.mem_cons_self c cs)
      rw [List.cons_append, parseFloatChars_digit _ hcdig, ← List.cons_append, ← hrn]
      rw [parseUFloat_fmt _ _ (Nat.mod_lt _ (by omega))]
      congr 1
      rw [hval]
      have habs : ((k.natAbs : ℤ) : ℚ) = (k : ℚ) := by
        have h : (k.natAbs : ℤ) = k := by omega
        rw [h]
      rw [habs]

theorem parseFloat_padLeft (w : ℕ) (cs : List Char) :
    parseFloatChars (padLeft w cs) = parseFloatChars cs := by
  rw [parseFloatChars, parseFloatChars, padLeft, dropWhile_space_replicate]

theorem idxmaxGo_spec (vs : List ℚ) :
    ∀ (pre : List ℚ) (b : ℕ × ℚ),
      pre[b.1]? = some b.2 →
      (∀ w ∈ pre, w ≤ b.2) →
      (∀ w ∈ pre.take b.1, w < b.2) →
      (pre ++ vs)[(idxmaxGo vs b pre.length).1]? = some (idxmaxGo vs b pre.length).2 ∧
        (∀ w ∈ pre ++ vs, w ≤ (idxmaxGo vs b pre.length).2) ∧
        ∀ w ∈ (pre ++ vs).take (idxmaxGo vs b pre.length).1, w < (idxmaxGo vs b pre.length).2 := by
  induction vs with
  | nil =>
    intro pre b h1 h2 h3
    simp only [idxmaxGo, List.append_nil]
    exact ⟨h1, h2, h3⟩
  | cons v vs ih =>
    intro pre b h1 h2 h3
    have hb : b.1 < pre.length := by
      by_contra hge
      rw [List.getElem?_eq_none (by omega)] at h1
      exact Option.noConfusion h1
    have hassoc : (pre ++ [v]) ++ vs = pre ++ v :: vs := by
      rw [List.append_assoc, List.singleton_append]
    have hlen : (pre ++ [v]).length = pre.length + 1 := by simp
    by_cases hv : b.2 < v
    · have hrec := ih (pre ++ [v]) (pre.length, v)
        (by simp [List.getElem?_concat_length])
        (by
          intro w hw
          rcases List.mem_append.mp hw with hw | hw
          · exact le_of_lt (lt_of_le_of_lt (h2 w hw) hv)
          · rw [List.mem_singleton.mp hw])
        (by
          intro w hw
          rw [List.take_left] at hw
          exact lt_of_le_of_lt (h2 w hw) hv)
      rw [hlen, hassoc] at hrec
      simpa only [idxmaxGo, if_pos hv] using hrec
    · have hrec := ih (pre ++ [v]) b
        (by rw [List.getElem?_append_left hb]; exact h1)
        (by
          intro w hw
          rcases List.mem_append.mp hw with hw | hw
          · exact h2 w hw
          · rw [List.mem_singleton.mp hw]; exact le_of_not_lt hv)
        (by
          intro w hw
          rw [List.take_append_of_le_length (le_of_lt hb)] at hw
          exact h3 w hw)
      rw [hlen, hassoc] at hrec
      simpa only [idxmaxGo, if_neg hv] using hrec

theorem idxmax_spec (vals : List ℚ) (h : vals ≠ []) :
    ∃ i v, idxmax vals = some i ∧ IsFirstMaxIdx vals i v := by
  cases vals with
  | nil => exact absurd rfl h
  | cons a vs =>
    have hrec := idxmaxGo_spec vs [a] (0, a) (by simp) (by simp) (by simp)
    simp only [List.length_singleton, List.singleton_append] at hrec
    exact ⟨(idxmaxGo vs (0, a) 1).1, (idxmaxGo vs (0, a) 1).2, rfl,
      hrec.1, hrec.2.1, hrec.2.2⟩

theorem bestPocket_spec (table : List PocketRecord) (m : Metric) (h : table ≠ []) :
    ∃ i rec, table[i]? = some rec ∧ bestPocket table m = some rec.pocket ∧
      IsFirstMaxIdx (table.map (metricCol m)) i (metricCol m rec) := by
  have hmap : table.map (metricCol m) ≠ [] := by
    intro hc
    exact h (List.map_eq_nil_iff.mp hc)
  obtain ⟨i, v, hidx, hfirst⟩ := idxmax_spec (table.map (metricCol m)) hmap
  have hget : (table.map (metricCol m))[i]? = some v := hfirst.1
  rw [List.getElem?_map] at hget
  cases hrec : table[i]? with
  | none => rw [hrec] at hget; exact Option.noConfusion hget
  | some rec =>
    rw [hrec] at hget
    have hv : metricCol m rec = v := Option.some_injective _ hget
    refine ⟨i, rec, hrec, ?_, ?_⟩
    · rw [bestPocket, hidx, Option.some_bind, hrec, Option.map_some']
    · rw [hv]; exact hfirst

theorem bestPocket_isSome (table : List PocketRecord) (m : Metric) (h : table ≠ []) :
    ∃ p, bestPocket table m = some p := by
  obtain ⟨i, rec, _, hbp, _⟩ := bestPocket_spec table m h
  exact ⟨rec.pocket, hbp⟩

theorem threeDec_fmt3 (q : ℚ) : ThreeDecimalString ⟨fmt3Chars q⟩ := by
  refine ⟨(if q < 0 then ['-'] else []) ++
    renderNat ((roundHalfEven (q * 1000)).natAbs / 1000),
    pad3 ((roundHalfEven (q * 1000)).natAbs % 1000), ?_, rfl, ?_⟩
  · simp [fmt3Chars, List.append_assoc]
  · intro c hc
    exact pad3_digits hc

theorem length_insertSorted (a : ℚ) (l : List ℚ) :
    (insertSorted a l).length = l.length + 1 := by
  induction l with
  | nil => rfl
  | cons b t ih =>
    rw [insertSorted]
    by_cases hab : a ≤ b
    · rw [if_pos hab]
      simp
    · rw [if_neg hab]
      simp [ih]

theorem length_sortQ (l : List ℚ) : (sortQ l).length = l.length := by
  induction l with
  | nil => rfl
  | cons a t ih =>
    rw [sortQ, length_insertSorted, ih]
    simp

theorem medianQ_isSome {l : List ℚ} (h : l ≠ []) : ∃ q, medianQ l = some q := by
  have hn : ¬ l.length = 0 := by
    intro hc
    exact h (List.length_eq_zero.mp hc)
  rw [medianQ, if_neg hn]
  by_cases hodd : l.length % 2 = 1
  · rw [if_pos hodd]
    have hlt : l.length / 2 < (sortQ l).length := by rw [length_sortQ]; omega
    exact ⟨_, List.getElem?_eq_getElem hlt⟩
  · rw [if_neg hodd]
    have h1 : l.length / 2 - 1 < (sortQ l).length := by rw [length_sortQ]; omega
    have h2 : l.length / 2 < (sortQ l).length := by rw [length_sortQ]; omega
    rw [List.getElem?_eq_getElem h1, List.getElem?_eq_getElem h2]
    exact ⟨_, rfl⟩

theorem meanQ_isSome {l : List ℚ} (h : l ≠ []) : ∃ q, meanQ l = some q := by
  have hn : ¬ l.length = 0 := by
    intro hc
    exact h (List.length_eq_zero.mp hc)
  rw [meanQ, if_neg hn]
  exact ⟨_, rfl⟩

theorem format_singleton (r : RawRow) :
    format_dataframe [r] = (formatRow r).map (fun fr => [fr]) := by
  cases h : formatRow r <;> simp [format_dataframe, h, Except.map]

theorem aggregate_ok (a : PocketAtom) (atoms : List PocketAtom) :
    ∃ med mean,
      format_dataframe (seriesToFrameT (colMedians (a :: atoms))) = .ok [med] ∧
      format_dataframe (seriesToFrameT (colMeans (a :: atoms))) = .ok [mean] ∧
      ThreeDecimalString med.x ∧ ThreeDecimalString med.y ∧ ThreeDecimalString med.z ∧
      ThreeDecimalString mean.x ∧ ThreeDecimalString mean.y ∧ ThreeDecimalString mean.z := by
  have hmap : ∀ f : PocketAtom → ℚ, (a :: atoms).map f ≠ [] := by
    intro f hc
    exact List.cons_ne_nil _ _ (List.map_eq_nil_iff.mp hc)
  obtain ⟨qmp, hqmp⟩ := medianQ_isSome (hmap (fun t => (t.pocket_number : ℚ)))
  obtain ⟨qmx, hqmx⟩ := medianQ_isSome (hmap PocketAtom.x)
  obtain ⟨qmy, hqmy⟩ := medianQ_isSome (hmap PocketAtom.y)
  obtain ⟨qmz, hqmz⟩ := medianQ_isSome (hmap PocketAtom.z)
  obtain ⟨qap, hqap⟩ := meanQ_isSome (hmap (fun t => (t.pocket_number : ℚ)))
  obtain ⟨qax, hqax⟩ := meanQ_isSome (hmap PocketAtom.x)
  obtain ⟨qay, hqay⟩ := meanQ_isSome (hmap PocketAtom.y)
  obtain ⟨qaz, hqaz⟩ := meanQ_isSome (hmap PocketAtom.z)
  have hmedrow : formatRow (colMedians (a :: atoms)) =
      .ok ⟨truncQ qmp, fmtOpt (some qmx), fmtOpt (some qmy), fmtOpt (some qmz)⟩ := by
    rw [formatRow]
    simp only [colMedians, hqmp, hqmx, hqmy, hqmz]
  have hmeanrow : formatRow (colMeans (a :: atoms)) =
      .ok ⟨truncQ qap, fmtOpt (some qax), fmtOpt (some qay), fmtOpt (some qaz)⟩ := by
    rw [formatRow]
    simp only [colMeans, hqap, hqax, hqay, hqaz]
  refine ⟨⟨truncQ qmp, fmtOpt (some qmx), fmtOpt (some qmy), fmtOpt (some qmz)⟩,
    ⟨truncQ qap, fmtOpt (some qax), fmtOpt (some qay), fmtOpt (some qaz)⟩,
    ?_, ?_, ?_, ?_, ?_, ?_, ?_, ?_⟩
  · rw [seriesToFrameT, format_singleton, hmedrow, Except.map]
  · rw [seriesToFrameT, format_singleton, hmeanrow, Except.map]
  all_goals exact threeDec_fmt3 _

theorem formatRow_empty_err :
    formatRow (colMedians []) = .error .valueError := by
  rw [formatRow]
  simp [colMedians, medianQ]

theorem format_empty_err :
    format_dataframe (seriesToFrameT (colMedians [])) = .error .valueError := by
  rw [seriesToFrameT, format_singleton, formatRow_empty_err, Except.map]

theorem parse_pqr_noAtom {lines : List String}
    (h : ∀ l ∈ lines, startsWithATOM l = false) : parse_pqr lines = .ok [] := by
  induction lines with
  | nil => rfl
  | cons line rest ih =>
    have hline : parseAtomLine line = .ok none := by
      rw [parseAtomLine, if_neg (by rw [h line (List.mem_cons_self line rest)]; exact
        Bool.false_ne_true)]
    rw [parse_pqr, hline]
    exact ih (fun l hl => h l (List.mem_cons_of_mem line hl))

theorem parse_pqr_append (l1 l2 : List String) :
    parse_pqr (l1 ++ l2) =
      match parse_pqr l1 with
      | .error e => .error e
      | .ok a => (parse_pqr l2).map (fun b => a ++ b) := by
  induction l1 with
  | nil =>
    simp only [List.nil_append, parse_pqr]
    cases parse_pqr l2 <;> simp [Except.map]
  | cons line rest ih =>
    rw [List.cons_append, parse_pqr, parse_pqr, ih]
    cases hl : parseAtomLine line with
    | error e => rfl
    | ok o =>
      cases o with
      | none => rfl
      | some a =>
        cases parse_pqr rest with
        | error e => rfl
        | ok b =>
          cases parse_pqr l2 <;> simp [Except.map]

theorem isPrefixOf_append {a b : List Char} (c : List Char) (h : a.isPrefixOf b = true) :
    a.isPrefixOf (b ++ c) = true := by
  induction a generalizing b with
  | nil => cases b ++ c <;> rfl
  | cons x xs ih =>
    cases b with
    | nil => exact absurd h (by simp [List.isPrefixOf])
    | cons y ys =>
      simp only [List.isPrefixOf, Bool.and_eq_true, beq_iff_eq] at h
      simp only [List.cons_append, List.isPrefixOf, Bool.and_eq_true, beq_iff_eq]
      exact ⟨h.1, ih h.2⟩

theorem wordsAux_shift (t : List Char) (ht : ∀ c ∈ t, c.isWhitespace = false) :
    ∀ (l acc : List Char), wordsAux (t ++ l) acc = wordsAux l (t.reverse ++ acc) := by
  induction t with
  | nil => intro l acc; simp
  | cons c cs ih =>
    intro l acc
    have hc : c.isWhitespace = false := ht c (List.mem_cons_self c cs)
    rw [List.cons_append, wordsAux, if_neg (by rw [hc]; exact Bool.false_ne_true)]
    rw [ih (fun d hd => ht d (List.mem_cons_of_mem c hd)) l (c :: acc)]
    congr 1
    simp

theorem wordsAux_token (t : List Char) (ht : ∀ c ∈ t, c.isWhitespace = false)
    (htne : t ≠ []) (l : List Char) :
    wordsAux (t ++ ' ' :: l) [] = t :: wordsAux l [] := by
  rw [wordsAux_shift t ht (' ' :: l) [], wordsAux, if_pos (by decide)]
  rw [List.append_nil]
  rw [if_neg (by simp [htne]), List.reverse_reverse]

theorem wordsAux_last (t : List Char) (ht : ∀ c ∈ t, c.isWhitespace = false)
    (htne : t ≠ []) :
    wordsAux t [] = [t] := by
  have h := wordsAux_shift t ht [] []
  rw [List.append_nil] at h
  rw [h, wordsAux, List.append_nil]
  rw [if_neg (by simp [htne]), List.reverse_reverse]

theorem renderInt_not_ws {n : ℤ} {c : Char} (hc : c ∈ renderInt n) : c.isWhitespace = false := by
  rw [renderInt] at hc
  rcases List.mem_append.mp hc with hc | hc
  · by_cases hneg : n < 0
    · rw [if_pos hneg, List.mem_singleton] at hc
      subst hc
      decide
    · rw [if_neg hneg] at hc
      exact absurd hc (List.not_mem_nil c)
  · exact isDigit_not_ws (renderNat_digits hc)

theorem renderInt_ne_nil (n : ℤ) : renderInt n ≠ [] := by
  rw [renderInt]
  intro hc
  rcases List.append_eq_nil.mp hc with ⟨_, h2⟩
  exact renderNat_ne_nil n.natAbs h2

theorem fmt3Chars_not_ws {q : ℚ} {c : Char} (hc : c ∈ fmt3Chars q) : c.isWhitespace = false := by
  rw [fmt3Chars] at hc
  rcases List.mem_append.mp hc with hc | hc
  · rcases List.mem_append.mp hc with hc | hc
    · by_cases hneg : q < 0
      · rw [if_pos hneg, List.mem_singleton] at hc
        subst hc
        decide
      · rw [if_neg hneg] at hc
        exact absurd hc (List.not_mem_nil c)
    · exact isDigit_not_ws (renderNat_digits hc)
  · rcases List.mem_cons.mp hc with hc | hc
    · subst hc
      decide
    · exact isDigit_not_ws (pad3_digits hc)

theorem fmt3Chars_ne_nil (q : ℚ) : fmt3Chars q ≠ [] := by
  rw [fmt3Chars]
  intro hc
  rcases List.append_eq_nil.mp hc with ⟨_, h2⟩
  exact List.cons_ne_nil _ _ h2

theorem pySplit_atomLineOf (pn kx ky kz : ℤ) :
    pySplit (atomLineOf pn kx ky kz) =
      ["ATOM".data, "1".data, "C".data, "POL".data, renderInt pn,
        fmt3Chars ((kx : ℚ) / 1000), fmt3Chars ((ky : ℚ) / 1000),
        fmt3Chars ((kz : ℚ) / 1000)] := by
  have hdata : (atomLineOf pn kx ky kz).data =
      "ATOM".data ++ ' ' :: ("1".data ++ ' ' :: ("C".data ++ ' ' :: ("POL".data ++ ' ' ::
        (renderInt pn ++ ' ' :: (fmt3Chars ((kx : ℚ) / 1000) ++ ' ' ::
          (fmt3Chars ((ky : ℚ) / 1000) ++ ' ' :: fmt3Chars ((kz : ℚ) / 1000))))))) := by
    show "ATOM 1 C POL ".data ++ renderInt pn ++ ' ' :: fmt3Chars ((kx : ℚ) / 1000) ++
      ' ' :: fmt3Chars ((ky : ℚ) / 1000) ++ ' ' :: fmt3Chars ((kz : ℚ) / 1000) = _
    simp only [List.append_assoc, List.cons_append]
    rfl
  rw [pySplit, hdata]
  rw [wordsAux_token _ (by decide) (by decide)]
  rw [wordsAux_token _ (by decide) (by decide)]
  rw [wordsAux_token _ (by decide) (by decide)]
  rw [wordsAux_token _ (by decide) (by decide)]
  rw [wordsAux_token _ (fun c hc => renderInt_not_ws hc) (renderInt_ne_nil pn)]
  rw [wordsAux_token _ (fun c hc => fmt3Chars_not_ws hc) (fmt3Chars_ne_nil _)]
  rw [wordsAux_token _ (fun c hc => fmt3Chars_not_ws hc) (fmt3Chars_ne_nil _)]
  rw [wordsAux_last _ (fun c hc => fmt3Chars_not_ws hc) (fmt3Chars_ne_nil _)]

theorem startsWithATOM_atomLineOf (pn kx ky kz : ℤ) :
    startsWithATOM (atomLineOf pn kx ky kz) = true := by
  rw [startsWithATOM]
  show List.isPrefixOf "ATOM".data ("ATOM 1 C POL ".data ++ renderInt pn ++
    ' ' :: fmt3Chars ((kx : ℚ) / 1000) ++ ' ' :: fmt3Chars ((ky : ℚ) / 1000) ++
    ' ' :: fmt3Chars ((kz : ℚ) / 1000)) = true
  exact isPrefixOf_append _ (isPrefixOf_append _ (isPrefixOf_append _
    (isPrefixOf_append _ (by decide))))

theorem parseAtomLine_atomLineOf (pn kx ky kz : ℤ) :
    parseAtomLine (atomLineOf pn kx ky kz) =
      .ok (some ⟨pn, (kx : ℚ) / 1000, (ky : ℚ) / 1000, (kz : ℚ) / 1000⟩) := by
  rw [parseAtomLine, if_pos (by rw [startsWithATOM_atomLineOf])]
  rw [pySplit_atomLineOf]
  have h5 : (["ATOM".data, "1".data, "C".data, "POL".data, renderInt pn,
      fmt3Chars ((kx : ℚ) / 1000), fmt3Chars ((ky : ℚ) / 1000),
      fmt3Chars ((kz : ℚ) / 1000)] : List (List Char))[5]? =
      some (fmt3Chars ((kx : ℚ) / 1000)) := rfl
  have h6 : (["ATOM".data, "1".data, "C".data, "POL".data, renderInt pn,
      fmt3Chars ((kx : ℚ) / 1000), fmt3Chars ((ky : ℚ) / 1000),
      fmt3Chars ((kz : ℚ) / 1000)] : List (List Char))[6]? =
      some (fmt3Chars ((ky : ℚ) / 1000)) := rfl
  have h7 : (["ATOM".data, "1".data, "C".data, "POL".data, renderInt pn,
      fmt3Chars ((kx : ℚ) / 1000), fmt3Chars ((ky : ℚ) / 1000),
      fmt3Chars ((kz : ℚ) / 1000)] : List (List Char))[7]? =
      some (fmt3Chars ((kz : ℚ) / 1000)) := rfl
  have h4 : (["ATOM".data, "1".data, "C".data, "POL".data, renderInt pn,
      fmt3Chars ((kx : ℚ) / 1000), fmt3Chars ((ky : ℚ) / 1000),
      fmt3Chars ((kz : ℚ) / 1000)] : List (List Char))[4]? = some (renderInt pn) := rfl
  simp only [h5, h6, h7, h4, parseFloat_fmt3, parseIntChars_renderInt]

theorem parseAtomLine_short {line : String} (hA : startsWithATOM line = true)
    (hlen : (pySplit line).length < 8)
    (hfl : ∀ i ∈ [5, 6, 7],
      Option.all (fun s => (parseFloatChars s).isSome) ((pySplit line)[i]?) = true) :
    parseAtomLine line = .error .indexError := by
  rw [parseAtomLine, if_pos (by rw [hA])]
  have h7n : (pySplit line)[7]? = none := List.getElem?_eq_none (by omega)
  cases h5 : (pySplit line)[5]? with
  | none => simp only [h5]
  | some p5 =>
    have h5s := hfl 5 (by simp)
    rw [h5] at h5s
    simp only [Option.all] at h5s
    obtain ⟨x, hx⟩ := Option.isSome_iff_exists.mp h5s
    cases h6 : (pySplit line)[6]? with
    | none => simp only [h5, hx, h6]
    | some p6 =>
      have h6s := hfl 6 (by simp)
      rw [h6] at h6s
      simp only [Option.all] at h6s
      obtain ⟨y, hy⟩ := Option.isSome_iff_exists.mp h6s
      simp only [h5, hx, h6, hy, h7n]

theorem parse_pqr_short_err {good : List String} {line : String} {rest : List String}
    {atoms : List PocketAtom} (hgood : parse_pqr good = .ok atoms)
    (hA : startsWithATOM line = true) (hlen : (pySplit line).length < 8)
    (hfl : ∀ i ∈ [5, 6, 7],
      Option.all (fun s => (parseFloatChars s).isSome) ((pySplit line)[i]?) = true) :
    parse_pqr (good ++ line :: rest) = .error .indexError := by
  rw [parse_pqr_append, hgood]
  rw [parse_pqr, parseAtomLine_short hA hlen hfl]
  rfl

theorem parsesNonempty_iff {lines : List String} :
    parsesNonempty lines = true ↔ ∃ a atoms, parse_pqr lines = .ok (a :: atoms) := by
  rw [parsesNonempty]
  cases h : parse_pqr lines with
  | error e => simp
  | ok l => cases l <;> simp

theorem parse_pqr_atomLineOf (pn kx ky kz : ℤ) :
    parse_pqr [atomLineOf pn kx ky kz] =
      .ok [⟨pn, (kx : ℚ) / 1000, (ky : ℚ) / 1000, (kz : ℚ) / 1000⟩] := by
  rw [parse_pqr, parseAtomLine_atomLineOf]
  rfl

theorem gbpLoop_ok (fs : FS) :
    ∀ pairs : List (Metric × ℚ),
      (∀ mq ∈ pairs, ∀ lines, lookupPqr fs.pqrFiles (truncQ mq.2) = some lines →
        parsesNonempty lines = true) →
      ∃ res wr, gbpLoop fs pairs = .ok (res, wr) ∧
        res.map Prod.fst = (pairs.filter fun mq =>
          (lookupPqr fs.pqrFiles (truncQ mq.2)).isSome).map Prod.fst ∧
        wr.map Prod.fst = (pairs.filter fun mq =>
          (lookupPqr fs.pqrFiles (truncQ mq.2)).isSome).flatMap
            (fun mq => [Metric.name mq.1 ++ "_median.csv", Metric.name mq.1 ++ "_mean.csv"]) ∧
        ∀ t ∈ res, (Metric.name t.1 ++ "_median.csv", csvLines t.2.1) ∈ wr ∧
          (Metric.name t.1 ++ "_mean.csv", csvLines t.2.2) ∈ wr := by
  intro pairs
  induction pairs with
  | nil =>
    intro hgood
    exact ⟨[], [], rfl, rfl, rfl, by simp⟩
  | cons mq rest ih =>
    intro hgood
    obtain ⟨m, p⟩ := mq
    obtain ⟨res, wr, hloop, hres, hwr, hmem⟩ := ih (fun x hx lines hl =>
      hgood x (List.mem_cons_of_mem _ hx) lines hl)
    cases hlk : lookupPqr fs.pqrFiles (truncQ p) with
    | none =>
      refine ⟨res, wr, ?_, ?_, ?_, hmem⟩
      · rw [gbpLoop, hlk]
        exact hloop
      · simp only [List.filter_cons, hlk, Option.isSome_none, Bool.false_eq_true, if_false]
        exact hres
      · simp only [List.filter_cons, hlk, Option.isSome_none, Bool.false_eq_true, if_false]
        exact hwr
    | some lines =>
      have hpne := hgood (m, p) (List.mem_cons_self _ _) lines hlk
      obtain ⟨a, atoms, hparse⟩ := parsesNonempty_iff.mp hpne
      obtain ⟨med, mean, hmed, hmean, _, _, _, _, _, _⟩ := aggregate_ok a atoms
      refine ⟨(m, med, mean) :: res,
        (Metric.name m ++ "_median.csv", csvLines med) ::
          (Metric.name m ++ "_mean.csv", csvLines mean) :: wr, ?_, ?_, ?_, ?_⟩
      · simp only [gbpLoop, hlk, hparse, hmed, hmean, hloop]
      · simp only [List.filter_cons, hlk, Option.isSome_some, if_true, List.map_cons]
        rw [hres]
      · simp only [List.filter_cons, hlk, Option.isSome_some, if_true, List.flatMap_cons,
          List.map_cons]
        rw [hwr]
        rfl
      · intro t ht
        rcases List.mem_cons.mp ht with heq | hmemres
        · subst heq
          exact ⟨List.mem_cons_self _ _, List.mem_cons_of_mem _ (List.mem_cons_self _ _)⟩
        · obtain ⟨h1, h2⟩ := hmem t hmemres
          exact ⟨List.mem_cons_of_mem _ (List.mem_cons_of_mem _ h1),
            List.mem_cons_of_mem _ (List.mem_cons_of_mem _ h2)⟩

theorem gbpLoop_err (fs : FS) :
    ∀ pairs : List (Metric × ℚ), ∀ mq ∈ pairs, ∀ lines,
      lookupPqr fs.pqrFiles (truncQ mq.2) = some lines →
      parse_pqr lines = .ok [] →
      ∃ e, gbpLoop fs pairs = .error e := by
  intro pairs
  induction pairs with
  | nil =>
    intro mq h
    exact absurd h (List.not_mem_nil mq)
  | cons hd rest ih =>
    intro mq hmq lines hlk hparse
    obtain ⟨m, p⟩ := hd
    rcases List.mem_cons.mp hmq with heq | hmem
    · subst heq
      refine ⟨.valueError, ?_⟩
      simp only [gbpLoop, hlk, hparse, format_empty_err]
    · cases hlk0 : lookupPqr fs.pqrFiles (truncQ p) with
      | none =>
        obtain ⟨e, he⟩ := ih mq hmem lines hlk hparse
        refine ⟨e, ?_⟩
        rw [gbpLoop, hlk0]
        exact he
      | some lines0 =>
        cases hp0 : parse_pqr lines0 with
        | error e0 =>
          refine ⟨e0, ?_⟩
          simp only [gbpLoop, hlk0, hp0]
        | ok atoms0 =>
          cases atoms0 with
          | nil =>
            refine ⟨.valueError, ?_⟩
            simp only [gbpLoop, hlk0, hp0, format_empty_err]
          | cons a0 t0 =>
            obtain ⟨med, mean, hmed, hmean, _, _, _, _, _, _⟩ := aggregate_ok a0 t0
            obtain ⟨e, he⟩ := ih mq hmem lines hlk hparse
            refine ⟨e, ?_⟩
            simp only [gbpLoop, hlk0, hp0, hmed, hmean, he]

theorem get_best_pockets_eq_loop (fs : FS) (table : List PocketRecord)
    (rest : List (List PocketRecord)) (hdir : fs.targetDirExists = true)
    (hcf : fs.charFiles = table :: rest) (hne : table ≠ []) :
    ∃ ps pd pa pv, bestPocket table .score = some ps ∧
      bestPocket table .drug_score = some pd ∧
      bestPocket table .sasa = some pa ∧ bestPocket table .volume = some pv ∧
      get_best_pockets fs =
        match gbpLoop fs [(.score, ps), (.drug_score, pd), (.sasa, pa), (.volume, pv)] with
        | .error e => .error e
        | .ok (res, wr) => .ok (.done res wr) := by
  obtain ⟨ps, hps⟩ := bestPocket_isSome table .score hne
  obtain ⟨pd, hpd⟩ := bestPocket_isSome table .drug_score hne
  obtain ⟨pa, hpa⟩ := bestPocket_isSome table .sasa hne
  obtain ⟨pv, hpv⟩ := bestPocket_isSome table .volume hne
  refine ⟨ps, pd, pa, pv, hps, hpd, hpa, hpv, ?_⟩
  rw [get_best_pockets, if_neg (by rw [hdir]; exact Bool.true_eq_false ▸ Bool.noConfusion)]
  simp only [hcf, hps, hpd, hpa, hpv]

theorem splitComma_append {a : List Char} (rest : List Char) (ha : ',' ∉ a) :
    splitComma (a ++ ',' :: rest) = a :: splitComma rest := by
  induction a with
  | nil =>
    rw [List.nil_append, splitComma, if_pos rfl]
  | cons c cs ih =>
    have hc : ¬ c = ',' := fun h => ha (by rw [h]; exact List.mem_cons_self _ _)
    rw [List.cons_append, splitComma, if_neg hc,
      ih (fun hm => ha (List.mem_cons_of_mem _ hm))]

theorem splitComma_nocomma {a : List Char} (ha : ',' ∉ a) : splitComma a = [a] := by
  induction a with
  | nil => rfl
  | cons c cs ih =>
    have hc : ¬ c = ',' := fun h => ha (by rw [h]; exact List.mem_cons_self _ _)
    rw [splitComma, if_neg hc, ih (fun hm => ha (List.mem_cons_of_mem _ hm))]

theorem dropWhile_head_false {p : Char → Bool} {cs : List Char}
    (h : ∀ c ∈ cs, p c = false) : cs.dropWhile p = cs := by
  cases cs with
  | nil => rfl
  | cons c t =>
    rw [List.dropWhile_cons, if_neg (by
      rw [h c (List.mem_cons_self c t)]
      exact Bool.false_ne_true)]

theorem pyStrip_of_no_ws {cs : List Char} (h : ∀ c ∈ cs, c.isWhitespace = false) :
    pyStripChars cs = cs := by
  rw [pyStripChars, dropWhile_head_false h,
    dropWhile_head_false (fun c hc => h c (List.mem_reverse.mp hc)), List.reverse_reverse]

theorem renderInt_no_comma (n : ℤ) : ',' ∉ renderInt n := by
  intro h
  rw [renderInt] at h
  rcases List.mem_append.mp h with h | h
  · by_cases hneg : n < 0
    · rw [if_pos hneg, List.mem_singleton] at h
      exact absurd h (by decide)
    · rw [if_neg hneg] at h
      exact List.not_mem_nil _ h
  · exact absurd (renderNat_digits h) (by decide)

theorem fmt3Chars_no_comma (q : ℚ) : ',' ∉ fmt3Chars q := by
  intro h
  rw [fmt3Chars] at h
  rcases List.mem_append.mp h with h | h
  · rcases List.mem_append.mp h with h | h
    · by_cases hneg : q < 0
      · rw [if_pos hneg, List.mem_singleton] at h
        exact absurd h (by decide)
      · rw [if_neg hneg] at h
        exact List.not_mem_nil _ h
    · exact absurd (renderNat_digits h) (by decide)
  · rcases List.mem_cons.mp h with h | h
    · exact absurd h (by decide)
    · exact absurd (pad3_digits h) (by decide)

theorem mkCsvRow_no_ws (pn kx ky kz : ℤ) :
    ∀ c ∈ (mkCsvRow pn kx ky kz).data, c.isWhitespace = false := by
  intro c hc
  have hdata : (mkCsvRow pn kx ky kz).data =
      renderInt pn ++ ',' :: fmt3Chars ((kx : ℚ) / 1000) ++ ',' :: fmt3Chars ((ky : ℚ) / 1000)
        ++ ',' :: fmt3Chars ((kz : ℚ) / 1000) := rfl
  rw [hdata] at hc
  rcases List.mem_append.mp hc with hc | hc
  · rcases List.mem_append.mp hc with hc | hc
    · rcases List.mem_append.mp hc with hc | hc
      · exact renderInt_not_ws hc
      · rcases List.mem_cons.mp hc with hc | hc
        · subst hc; decide
        · exact fmt3Chars_not_ws hc
    · rcases List.mem_cons.mp hc with hc | hc
      · subst hc; decide
      · exact fmt3Chars_not_ws hc
  · rcases List.mem_cons.mp hc with hc | hc
    · subst hc; decide
    · exact fmt3Chars_not_ws hc

theorem splitComma_mkCsvRow (pn kx ky kz : ℤ) :
    splitComma (mkCsvRow pn kx ky kz).data =
      [renderInt pn, fmt3Chars ((kx : ℚ) / 1000), fmt3Chars ((ky : ℚ) / 1000),
        fmt3Chars ((kz : ℚ) / 1000)] := by
  have hdata : (mkCsvRow pn kx ky kz).data =
      renderInt pn ++ ',' :: (fmt3Chars ((kx : ℚ) / 1000) ++ ',' ::
        (fmt3Chars ((ky : ℚ) / 1000) ++ ',' :: fmt3Chars ((kz : ℚ) / 1000))) := by
    show renderInt pn ++ ',' :: fmt3Chars ((kx : ℚ) / 1000) ++ ',' ::
      fmt3Chars ((ky : ℚ) / 1000) ++ ',' :: fmt3Chars ((kz : ℚ) / 1000) = _
    simp only [List.append_assoc, List.cons_append]
  rw [hdata, splitComma_append _ (renderInt_no_comma pn),
    splitComma_append _ (fmt3Chars_no_comma _),
    splitComma_append _ (fmt3Chars_no_comma _),
    splitComma_nocomma (fmt3Chars_no_comma _)]

theorem csv_to_pdb_line_mkCsvRow (pn kx ky kz : ℤ) :
    csv_to_pdb_line (mkCsvRow pn kx ky kz) =
      .ok (hetatmLine pn ((kx : ℚ) / 1000) ((ky : ℚ) / 1000) ((kz : ℚ) / 1000)) := by
  rw [csv_to_pdb_line, pyStrip_of_no_ws (mkCsvRow_no_ws pn kx ky kz),
    splitComma_mkCsvRow]
  simp only [parseIntChars_renderInt, parseFloat_fmt3]

theorem padLeft_length (w : ℕ) (cs : List Char) (h : cs.length ≤ w) :
    (padLeft w cs).length = w := by
  rw [padLeft]
  simp only [List.length_append, List.length_replicate]
  omega

theorem drop_len_append {u v : List Char} {k : ℕ} (h : u.length = k) :
    (u ++ v).drop k = v := by
  subst h
  exact List.drop_left u v

theorem take_len_append {u v : List Char} {k : ℕ} (h : u.length = k) :
    (u ++ v).take k = u := by
  subst h
  exact List.take_left u v

theorem renderNat_length_le_of_lt {n : ℕ} {k : ℕ} (hk : 1 ≤ k) (h : n < 10 ^ k) :
    (renderInt (n : ℤ)).length ≤ k := by
  rw [renderInt, if_neg (by omega)]
  rw [List.nil_append]
  have : (n : ℤ).natAbs = n := Int.natAbs_ofNat n
  rw [this]
  exact renderNat_length_le hk h

theorem fmt3_length_le {k : ℤ} (h1 : -1000000 < k) (h2 : k < 10000000) :
    (fmt3Chars ((k : ℚ) / 1000)).length ≤ 8 := by
  rw [fmt3Chars_thousandths]
  simp only [List.length_append, List.length_cons, pad3, List.length_nil]
  by_cases hneg : k < 0
  · rw [if_pos hneg]
    have hbound : k.natAbs / 1000 < 10 ^ 3 := by omega
    have := renderNat_length_le (by omega : 1 ≤ 3) hbound
    simp only [List.length_singleton]
    omega
  · rw [if_neg hneg]
    have hbound : k.natAbs / 1000 < 10 ^ 4 := by omega
    have := renderNat_length_le (by omega : 1 ≤ 4) hbound
    simp only [List.length_nil]
    omega

theorem hetatm_fields (n : ℤ) (x y z : ℚ) (hn : (renderInt n).length ≤ 5)
    (hx : (fmt3Chars x).length ≤ 8) (hy : (fmt3Chars y).length ≤ 8)
    (hz : (fmt3Chars z).length ≤ 8) :
    pdbCoordFields (hetatmLine n x y z) =
      (padLeft 8 (fmt3Chars x), padLeft 8 (fmt3Chars y), padLeft 8 (fmt3Chars z)) := by
  have hdata : (hetatmLine n x y z).data =
      ("HETATM".data ++ padLeft 5 (renderInt n) ++ "  XE  PCK A   1    ".data) ++
        (padLeft 8 (fmt3Chars x) ++ (padLeft 8 (fmt3Chars y) ++
          (padLeft 8 (fmt3Chars z) ++ "  1.00 96.24           Xe\n".data))) := by
    show hetatmChars n x y z = _
    rw [hetatmChars]
    simp only [List.append_assoc]
  have h30 : ("HETATM".data ++ padLeft 5 (renderInt n) ++
      "  XE  PCK A   1    ".data).length = 30 := by
    simp only [List.length_append, padLeft_length 5 _ hn]
    rfl
  have hx8 : (padLeft 8 (fmt3Chars x)).length = 8 := padLeft_length 8 _ hx
  have hy8 : (padLeft 8 (fmt3Chars y)).length = 8 := padLeft_length 8 _ hy
  have hd30 : (hetatmLine n x y z).data.drop 30 =
      padLeft 8 (fmt3Chars x) ++ (padLeft 8 (fmt3Chars y) ++
        (padLeft 8 (fmt3Chars z) ++ "  1.00 96.24           Xe\n".data)) := by
    rw [hdata, drop_len_append h30]
  have hd38 : (hetatmLine n x y z).data.drop 38 =
      padLeft 8 (fmt3Chars y) ++ (padLeft 8 (fmt3Chars z) ++
        "  1.00 96.24           Xe\n".data) := by
    have : (38 : ℕ) = 30 + 8 := rfl
    rw [this, ← List.drop_drop, hd30, drop_len_append hx8]
  have hd46 : (hetatmLine n x y z).data.drop 46 =
      padLeft 8 (fmt3Chars z) ++ "  1.00 96.24           Xe\n".data := by
    have : (46 : ℕ) = 38 + 8 := rfl
    rw [this, ← List.drop_drop, hd38, drop_len_append hy8]
  rw [pdbCoordFields, hd30, hd38, hd46, take_len_append hx8, take_len_append hy8,
    take_len_append (padLeft_length 8 _ hz)]

theorem lookupPqr_mem {files : List (ℤ × List String)} {id : ℤ} {lines : List String}
    (h : lookupPqr files id = some lines) : ∃ p ∈ files, p.2 = lines := by
  rw [lookupPqr] at h
  cases hf : files.find? (fun p => p.1 = id) with
  | none => rw [hf] at h; exact Option.noConfusion h
  | some entry =>
    rw [hf] at h
    exact ⟨entry, List.mem_of_find?_eq_some hf, by simpa using h⟩

theorem metricFileNames_distinct (m mp : Metric) (h : m ≠ mp) :
    Metric.name m ++ "_median.csv" ≠ Metric.name mp ++ "_median.csv" ∧
    Metric.name m ++ "_median.csv" ≠ Metric.name mp ++ "_mean.csv" ∧
    Metric.name m ++ "_mean.csv" ≠ Metric.name mp ++ "_median.csv" ∧
    Metric.name m ++ "_mean.csv" ≠ Metric.name mp ++ "_mean.csv" := by
  cases m <;> cases mp <;>
    first
    | exact absurd rfl h
    | exact ⟨by decide, by decide, by decide, by decide⟩

theorem metricMedianMean_distinct (m mp : Metric) :
    Metric.name m ++ "_median.csv" ≠ Metric.name mp ++ "_mean.csv" := by
  cases m <;> cases mp <;> decide

theorem run_false_sentinel {t : ToolEnv} (h : run_fpocketR t = some false) :
    containsSentinel t.stdout = true ∨ containsSentinel t.stderr = true := by
  rw [run_fpocketR] at h
  by_cases h1 : t.condaFound = false
  · rw [if_pos h1] at h
    exact Option.noConfusion h
  · rw [if_neg h1] at h
    by_cases h2 : t.raisesCalledProcessError = true
    · rw [if_pos h2] at h
      exact Option.noConfusion h
    · rw [if_neg h2] at h
      by_cases h3 : (containsSentinel t.stdout || containsSentinel t.stderr) = true
      · exact Bool.or_eq_true_iff.mp h3
      · rw [if_neg h3] at h
        simp at h

theorem run_true_no_sentinel {t : ToolEnv} (h : run_fpocketR t = some true) :
    containsSentinel t.stdout = false ∧ containsSentinel t.stderr = false := by
  rw [run_fpocketR] at h
  by_cases h1 : t.condaFound = false
  · rw [if_pos h1] at h
    exact Option.noConfusion h
  · rw [if_neg h1] at h
    by_cases h2 : t.raisesCalledProcessError = true
    · rw [if_pos h2] at h
      exact Option.noConfusion h
    · rw [if_neg h2] at h
      by_cases h3 : (containsSentinel t.stdout || containsSentinel t.stderr) = true
      · rw [if_pos h3] at h
        simp at h
      · simp only [Bool.or_eq_true_iff, not_or, Bool.not_eq_true] at h3
        exact h3

end Lemmas

section Claims

/-- C1: for every nonempty characteristics table and each of the four
metrics, the pocket identifier selected by `get_best_pockets` (via
`bestPocket`) equals the `Pocket` value of the row holding the maximum value
in that metric's column, and when several rows share that maximum the
first-occurring row is chosen: the selected row's value dominates every row
and strictly dominates every earlier row. -/
theorem spec_c1_best_pocket_first_max (table : List PocketRecord) (m : Metric)
    (h : table ≠ []) :
    ∃ i rec, table[i]? = some rec ∧ bestPocket table m = some rec.pocket ∧
      (∀ r ∈ table, metricCol m r ≤ metricCol m rec) ∧
      ∀ r ∈ table.take i, metricCol m r < metricCol m rec := by
  obtain ⟨i, rec, hget, hbp, hfirst⟩ := bestPocket_spec table m h
  obtain ⟨_, hmax, hlt⟩ := hfirst
  refine ⟨i, rec, hget, hbp, ?_, ?_⟩
  · intro r hr
    exact hmax (metricCol m r) (List.mem_map_of_mem (metricCol m) hr)
  · intro r hr
    refine hlt (metricCol m r) ?_
    rw [← List.map_take]
    exact List.mem_map_of_mem (metricCol m) hr

/-- C2: for every geometry file that parses to a nonempty table, the median
and the mean frame produced by the aggregation step each contain exactly one
row, whose `pocket_number` is an integer (the field of `FormattedRow` has
type `ℤ`, as `astype(int)` succeeds) and whose `x`, `y`, `z` entries are
strings formatted with exactly three decimal digits. -/
theorem spec_c2_aggregate_single_row_three_decimals (lines : List String)
    (tbl : List PocketAtom) (hparse : parse_pqr lines = .ok tbl) (hne : tbl ≠ []) :
    ∃ med mean,
      format_dataframe (seriesToFrameT (colMedians tbl)) = .ok [med] ∧
      format_dataframe (seriesToFrameT (colMeans tbl)) = .ok [mean] ∧
      ThreeDecimalString med.x ∧ ThreeDecimalString med.y ∧ ThreeDecimalString med.z ∧
      ThreeDecimalString mean.x ∧ ThreeDecimalString mean.y ∧ ThreeDecimalString mean.z := by
  cases tbl with
  | nil => exact absurd rfl hne
  | cons a atoms => exact aggregate_ok a atoms

/-- C3: converting an aggregated coordinate CSV row (pocket identifier and
coordinates already formatted to three decimals) with the `csv_to_pdb` loop
body into the synthetic HETATM record and parsing the three fixed-column
coordinate fields back yields exactly the original coordinate values; the
bounds keep the fields within their fixed eight-character columns and the
identifier within its five-character column. -/
theorem spec_c3_csv_pdb_roundtrip (pn kx ky kz : ℤ) (hpn0 : 0 ≤ pn)
    (hpn : pn < 100000) (hkx1 : -1000000 < kx) (hkx2 : kx < 10000000)
    (hky1 : -1000000 < ky) (hky2 : ky < 10000000)
    (hkz1 : -1000000 < kz) (hkz2 : kz < 10000000) :
    ∃ pline, csv_to_pdb_line (mkCsvRow pn kx ky kz) = .ok pline ∧
      parseFloatChars (pdbCoordFields pline).1 = some ((kx : ℚ) / 1000) ∧
      parseFloatChars (pdbCoordFields pline).2.1 = some ((ky : ℚ) / 1000) ∧
      parseFloatChars (pdbCoordFields pline).2.2 = some ((kz : ℚ) / 1000) := by
  have hple : (renderInt pn).length ≤ 5 := by
    rw [renderInt, if_neg (by omega), List.nil_append]
    refine renderNat_length_le (by norm_num) ?_
    have hlt : pn.natAbs < 100000 := by omega
    calc pn.natAbs < 100000 := hlt
    _ = 10 ^ 5 := by norm_num
  have hfields := hetatm_fields pn ((kx : ℚ) / 1000) ((ky : ℚ) / 1000) ((kz : ℚ) / 1000)
    hple (fmt3_length_le hkx1 hkx2) (fmt3_length_le hky1 hky2) (fmt3_length_le hkz1 hkz2)
  refine ⟨_, csv_to_pdb_line_mkCsvRow pn kx ky kz, ?_, ?_, ?_⟩
  · rw [hfields]
    show parseFloatChars (padLeft 8 (fmt3Chars ((kx : ℚ) / 1000))) = _
    rw [parseFloat_padLeft, parseFloat_fmt3]
  · rw [hfields]
    show parseFloatChars (padLeft 8 (fmt3Chars ((ky : ℚ) / 1000))) = _
    rw [parseFloat_padLeft, parseFloat_fmt3]
  · rw [hfields]
    show parseFloatChars (padLeft 8 (fmt3Chars ((kz : ℚ) / 1000))) = _
    rw [parseFloat_padLeft, parseFloat_fmt3]

/-- C4 (amended): the program exits with code 2 exactly when the tool output
contains the sentinel text `No Pockets Found` or `run_fpocketR` returns
`None`; when the tool reports success the pipeline continues with no
exception handler, so the process exits 0 when `get_best_pockets` and the
packaging steps complete, and exits 1 (the interpreter's uncaught-exception
code) when either of them raises; when the sentinel text is present the
`fpocket-R` working directory is removed on the failure path. -/
theorem spec_c4_exit_codes (env : MainEnv) :
    ((mainEntry env).exitCode = 2 ↔
      (containsSentinel env.tool.stdout = true ∨ containsSentinel env.tool.stderr = true ∨
        run_fpocketR env.tool = none)) ∧
    (∀ res, run_fpocketR env.tool = some true → get_best_pockets env.fs = .ok res →
      env.packagingError = none → (mainEntry env).exitCode = 0) ∧
    (∀ e, run_fpocketR env.tool = some true → get_best_pockets env.fs = .error e →
      (mainEntry env).exitCode = 1) ∧
    (∀ res e, run_fpocketR env.tool = some true → get_best_pockets env.fs = .ok res →
      env.packagingError = some e → (mainEntry env).exitCode = 1) ∧
    ((containsSentinel env.tool.stdout = true ∨ containsSentinel env.tool.stderr = true) →
      (mainEntry env).workDirRemoved = true) := by
  refine ⟨?_, ?_, ?_, ?_, ?_⟩
  · cases hrun : run_fpocketR env.tool with
    | none => simp [mainEntry, hrun]
    | some b =>
      cases b with
      | false =>
        have hs := run_false_sentinel hrun
        simp only [mainEntry, hrun]
        constructor
        · intro _
          rcases hs with hs | hs
          · exact Or.inl hs
          · exact Or.inr (Or.inl hs)
        · intro _
          trivial
      | true =>
        have hs := run_true_no_sentinel hrun
        cases hg : get_best_pockets env.fs with
        | error e => simp [mainEntry, hrun, hg, hs.1, hs.2]
        | ok r =>
          cases hpk : env.packagingError <;>
            simp [mainEntry, hrun, hg, hpk, hs.1, hs.2]
  · intro res hrun hg hpk
    simp [mainEntry, hrun, hg, hpk]
  · intro e hrun hg
    simp [mainEntry, hrun, hg]
  · intro res e hrun hg hpk
    simp [mainEntry, hrun, hg, hpk]
  · intro hsent
    cases hrun : run_fpocketR env.tool with
    | none => simp [mainEntry, hrun]
    | some b =>
      cases b with
      | false => simp [mainEntry, hrun]
      | true =>
        have hs := run_true_no_sentinel hrun
        rcases hsent with hsent | hsent
        · rw [hs.1] at hsent
          exact Bool.noConfusion hsent
        · rw [hs.2] at hsent
          exact Bool.noConfusion hsent

/-- C5: for every filesystem state whose target directory exists but holds no
file matching `*characteristics.csv`, `get_best_pockets` returns the silent
`noCsv` outcome: no output file is written and no exception propagates to the
caller. -/
theorem spec_c5_missing_csv_silent (fs : FS) (hdir : fs.targetDirExists = true)
    (hcsv : fs.charFiles = []) :
    get_best_pockets fs = .ok .noCsv ∧ gbpWritten (get_best_pockets fs) = [] ∧
      ∀ e, get_best_pockets fs ≠ .error e := by
  have hgbp : get_best_pockets fs = .ok .noCsv := by
    rw [get_best_pockets, if_neg (by simp [hdir])]
    simp only [hcsv]
  refine ⟨hgbp, by rw [hgbp]; rfl, fun e he => ?_⟩
  rw [hgbp] at he
  exact Except.noConfusion he

/-- C6 (amended): when no file matching the characteristics pattern is found
in an existing target directory, `get_best_pockets` reports the condition and
returns early with no output, but does not abort the run: it raises no
exception and the caller continues. -/
theorem spec_c6_no_csv_reports_but_continues (fs : FS)
    (hdir : fs.targetDirExists = true) (hcsv : fs.charFiles = []) :
    get_best_pockets fs = .ok .noCsv ∧ gbpAborts (get_best_pockets fs) = false ∧
      gbpWritten (get_best_pockets fs) = [] := by
  have hgbp : get_best_pockets fs = .ok .noCsv := by
    rw [get_best_pockets, if_neg (by simp [hdir])]
    simp only [hcsv]
  exact ⟨hgbp, by rw [hgbp]; rfl, by rw [hgbp]; rfl⟩

/-- C7 (amended): for each processed metric, the aggregator writes the median
row and the mean row to two metric-named CSV files, `{metric}_median.csv`
holding the median row and `{metric}_mean.csv` holding the mean row. -/
theorem spec_c7_two_files_per_metric (fs : FS) (table : List PocketRecord)
    (rest : List (List PocketRecord)) (hdir : fs.targetDirExists = true)
    (hcf : fs.charFiles = table :: rest) (hne : table ≠ [])
    (hgood : ∀ p ∈ fs.pqrFiles, parsesNonempty p.2 = true) :
    ∃ res wr, get_best_pockets fs = .ok (.done res wr) ∧
      ∀ t ∈ res, (Metric.name t.1 ++ "_median.csv", csvLines t.2.1) ∈ wr ∧
        (Metric.name t.1 ++ "_mean.csv", csvLines t.2.2) ∈ wr := by
  obtain ⟨ps, pd, pa, pv, hps, hpd, hpa, hpv, hgbp⟩ :=
    get_best_pockets_eq_loop fs table rest hdir hcf hne
  have hgood2 : ∀ mq ∈ [((.score : Metric), ps), (.drug_score, pd), (.sasa, pa), (.volume, pv)],
      ∀ lines, lookupPqr fs.pqrFiles (truncQ mq.2) = some lines →
        parsesNonempty lines = true := by
    intro mq _ lines hl
    obtain ⟨p, hp, hpe⟩ := lookupPqr_mem hl
    rw [← hpe]
    exact hgood p hp
  obtain ⟨res, wr, hloop, _, _, hmem⟩ := gbpLoop_ok fs _ hgood2
  rw [hloop] at hgbp
  exact ⟨res, wr, hgbp, hmem⟩

/-- C8 (amended): a marker-prefixed line with fewer than eight
whitespace-delimited fields makes `parse_pqr` fail with an uncaught exception
propagated to the caller; it is the index error whenever the fields present
at the accessed coordinate positions parse as float literals (otherwise the
conversion itself raises a value error first, see the counterexample).  Lines
not starting with the marker are ignored, and no numeric-range validation is
performed: a well-formed record is accepted whatever the magnitude of its
values. -/
theorem spec_c8_short_line_errors :
    (∀ (good : List String) (line : String) (rest : List String)
      (atoms : List PocketAtom), parse_pqr good = .ok atoms →
      startsWithATOM line = true → (pySplit line).length < 8 →
      (∀ i ∈ [5, 6, 7],
        Option.all (fun s => (parseFloatChars s).isSome) ((pySplit line)[i]?) = true) →
      parse_pqr (good ++ line :: rest) = .error .indexError) ∧
    (∀ (line : String) (rest : List String), startsWithATOM line = false →
      parse_pqr (line :: rest) = parse_pqr rest) ∧
    ∀ pn kx ky kz : ℤ, parse_pqr [atomLineOf pn kx ky kz] =
      .ok [⟨pn, (kx : ℚ) / 1000, (ky : ℚ) / 1000, (kz : ℚ) / 1000⟩] := by
  refine ⟨?_, ?_, ?_⟩
  · intro good line rest atoms hg hA hlen hfl
    exact parse_pqr_short_err hg hA hlen hfl
  · intro line rest hA
    rw [parse_pqr,
      show parseAtomLine line = .ok none from by
        rw [parseAtomLine, if_neg (by rw [hA]; exact Bool.false_ne_true)]]
  · intro pn kx ky kz
    exact parse_pqr_atomLineOf pn kx ky kz

/-- C9: a metric whose selected best pocket has no geometry file named
`pocket{id}_vert.pqr` is skipped without error: no median or mean CSV is
written for it and it is omitted from the results dictionary, while every
metric whose geometry file exists is still processed (under the applicability
condition that the present geometry files parse to nonempty tables, so that
no unrelated exception aborts the loop). -/
theorem spec_c9_missing_geometry_skipped (fs : FS) (table : List PocketRecord)
    (rest : List (List PocketRecord)) (hdir : fs.targetDirExists = true)
    (hcf : fs.charFiles = table :: rest) (hne : table ≠ [])
    (hgood : ∀ p ∈ fs.pqrFiles, parsesNonempty p.2 = true) :
    ∃ res wr, get_best_pockets fs = .ok (.done res wr) ∧
      ∀ m p, bestPocket table m = some p →
        (lookupPqr fs.pqrFiles (truncQ p) = none →
          (∀ t ∈ res, t.1 ≠ m) ∧
          ∀ f ∈ wr, f.1 ≠ Metric.name m ++ "_median.csv" ∧
            f.1 ≠ Metric.name m ++ "_mean.csv") ∧
        ∀ lines, lookupPqr fs.pqrFiles (truncQ p) = some lines →
          ∃ t ∈ res, t.1 = m := by
  obtain ⟨ps, pd, pa, pv, hps, hpd, hpa, hpv, hgbp⟩ :=
    get_best_pockets_eq_loop fs table rest hdir hcf hne
  have hgood2 : ∀ mq ∈ [((.score : Metric), ps), (.drug_score, pd), (.sasa, pa), (.volume, pv)],
      ∀ lines, lookupPqr fs.pqrFiles (truncQ mq.2) = some lines →
        parsesNonempty lines = true := by
    intro mq _ lines hl
    obtain ⟨p, hp, hpe⟩ := lookupPqr_mem hl
    rw [← hpe]
    exact hgood p hp
  obtain ⟨res, wr, hloop, hres, hwr, _⟩ := gbpLoop_ok fs _ hgood2
  rw [hloop] at hgbp
  refine ⟨res, wr, hgbp, ?_⟩
  intro m p hbp
  have key : ∀ mq ∈ [((.score : Metric), ps), (.drug_score, pd), (.sasa, pa), (.volume, pv)],
      mq.1 = m → mq.2 = p := by
    intro mq hmq he
    simp only [List.mem_cons, List.not_mem_nil, or_false] at hmq
    rcases hmq with h | h | h | h <;> subst h <;>
      (first
        | (have he2 : Metric.score = m := he
           subst he2
           rw [hps] at hbp
           exact Option.some_inj.mp hbp)
        | (have he2 : Metric.drug_score = m := he
           subst he2
           rw [hpd] at hbp
           exact Option.some_inj.mp hbp)
        | (have he2 : Metric.sasa = m := he
           subst he2
           rw [hpa] at hbp
           exact Option.some_inj.mp hbp)
        | (have he2 : Metric.volume = m := he
           subst he2
           rw [hpv] at hbp
           exact Option.some_inj.mp hbp))
  constructor
  · intro hnone
    have knone : ∀ mq ∈ [((.score : Metric), ps), (.drug_score, pd), (.sasa, pa), (.volume, pv)],
        (lookupPqr fs.pqrFiles (truncQ mq.2)).isSome = true → mq.1 ≠ m := by
      intro mq hmq hpred he
      rw [key mq hmq he, hnone] at hpred
      simp at hpred
    constructor
    · intro t ht hteq
      have hm1 : t.1 ∈ res.map Prod.fst := List.mem_map_of_mem _ ht
      rw [hres] at hm1
      obtain ⟨mq, hmqf, hmqe⟩ := List.mem_map.mp hm1
      obtain ⟨hmqp, hmqpred⟩ := List.mem_filter.mp hmqf
      exact knone mq hmqp (by simpa using hmqpred) (by rw [hmqe, hteq])
    · intro f hf
      have hm1 : f.1 ∈ wr.map Prod.fst := List.mem_map_of_mem _ hf
      rw [hwr] at hm1
      obtain ⟨mq, hmqf, hmqn⟩ := List.mem_flatMap.mp hm1
      obtain ⟨hmqp, hmqpred⟩ := List.mem_filter.mp hmqf
      have hnem : mq.1 ≠ m := knone mq hmqp (by simpa using hmqpred)
      obtain ⟨d1, d2, d3, d4⟩ := metricFileNames_distinct mq.1 m hnem
      rcases List.mem_cons.mp hmqn with h | h
      · rw [h]
        exact ⟨d1, d2⟩
      · rw [List.mem_singleton] at h
        rw [h]
        exact ⟨d3, d4⟩
  · intro lines hsome
    have hpair : (m, p) ∈ [((.score : Metric), ps), (.drug_score, pd), (.sasa, pa), (.volume, pv)] := by
      cases m
      · have hpe : p = ps := by
          rw [hps] at hbp
          exact (Option.some_inj.mp hbp).symm
        rw [hpe]
        exact List.mem_cons_self _ _
      · have hpe : p = pd := by
          rw [hpd] at hbp
          exact (Option.some_inj.mp hbp).symm
        rw [hpe]
        exact List.mem_cons_of_mem _ (List.mem_cons_self _ _)
      · have hpe : p = pa := by
          rw [hpa] at hbp
          exact (Option.some_inj.mp hbp).symm
        rw [hpe]
        exact List.mem_cons_of_mem _ (List.mem_cons_of_mem _ (List.mem_cons_self _ _))
      · have hpe : p = pv := by
          rw [hpv] at hbp
          exact (Option.some_inj.mp hbp).symm
        rw [hpe]
        exact List.mem_cons_of_mem _ (List.mem_cons_of_mem _
          (List.mem_cons_of_mem _ (List.mem_cons_self _ _)))
    have hm1 : m ∈ (([((.score : Metric), ps), (.drug_score, pd), (.sasa, pa),
        (.volume, pv)].filter fun mq =>
          (lookupPqr fs.pqrFiles (truncQ mq.2)).isSome)).map Prod.fst :=
      List.mem_map.mpr ⟨(m, p), List.mem_filter.mpr ⟨hpair, by simp [hsome]⟩, rfl⟩
    rw [← hres] at hm1
    obtain ⟨t, ht, hte⟩ := List.mem_map.mp hm1
    exact ⟨t, ht, hte⟩

/-- C10: a geometry file without a single marker-prefixed line parses to the
empty table, the subsequent aggregation raises an error at the integer
coercion of the undefined median pocket identifier, and if such a file is the
geometry file of a selected best pocket then `get_best_pockets` propagates an
exception; hence the function succeeds on an existing geometry file only when
the file holds at least one marker-prefixed record. -/
theorem spec_c10_empty_geometry_errors (fs : FS) (table : List PocketRecord)
    (rest : List (List PocketRecord)) (m : Metric) (p : ℚ) (lines : List String)
    (hdir : fs.targetDirExists = true) (hcf : fs.charFiles = table :: rest)
    (hne : table ≠ []) (hbp : bestPocket table m = some p)
    (hlk : lookupPqr fs.pqrFiles (truncQ p) = some lines)
    (hnoatom : ∀ l ∈ lines, startsWithATOM l = false) :
    parse_pqr lines = .ok [] ∧
    format_dataframe (seriesToFrameT (colMedians [])) = .error .valueError ∧
    ∃ e, get_best_pockets fs = .error e := by
  have hparse := parse_pqr_noAtom hnoatom
  refine ⟨hparse, format_empty_err, ?_⟩
  obtain ⟨ps, pd, pa, pv, hps, hpd, hpa, hpv, hgbp⟩ :=
    get_best_pockets_eq_loop fs table rest hdir hcf hne
  have hpair : (m, p) ∈ [((.score : Metric), ps), (.drug_score, pd), (.sasa, pa), (.volume, pv)] := by
    cases m
    · have hpe : p = ps := by
        rw [hps] at hbp
        exact (Option.some_inj.mp hbp).symm
      rw [hpe]
      exact List.mem_cons_self _ _
    · have hpe : p = pd := by
        rw [hpd] at hbp
        exact (Option.some_inj.mp hbp).symm
      rw [hpe]
      exact List.mem_cons_of_mem _ (List.mem_cons_self _ _)
    · have hpe : p = pa := by
        rw [hpa] at hbp
        exact (Option.some_inj.mp hbp).symm
      rw [hpe]
      exact List.mem_cons_of_mem _ (List.mem_cons_of_mem _ (List.mem_cons_self _ _))
    · have hpe : p = pv := by
        rw [hpv] at hbp
        exact (Option.some_inj.mp hbp).symm
      rw [hpe]
      exact List.mem_cons_of_mem _ (List.mem_cons_of_mem _
        (List.mem_cons_of_mem _ (List.mem_cons_self _ _)))
  obtain ⟨e, he⟩ := gbpLoop_err fs _ (m, p) hpair lines hlk hparse
  rw [he] at hgbp
  exact ⟨e, hgbp⟩

section Concrete

attribute [local semireducible] Rat.add Rat.mul Rat.inv Rat.sub

set_option maxRecDepth 8000

/-- C1 witness: on the four-row table with Score values `[1, 5, 3, 2]` the
score metric selects the pocket of the row with Score 5, namely pocket 2. -/
theorem spec_c1_best_pocket_first_max_witness :
    tableScores1532 ≠ [] ∧
    (∃ i rec, tableScores1532[i]? = some rec ∧
      bestPocket tableScores1532 .score = some rec.pocket ∧
      (∀ r ∈ tableScores1532, metricCol .score r ≤ metricCol .score rec) ∧
      ∀ r ∈ tableScores1532.take i, metricCol .score r < metricCol .score rec) ∧
    bestPocket tableScores1532 .score = some 2 :=
  ⟨by decide, spec_c1_best_pocket_first_max tableScores1532 .score (by decide), by decide⟩

/-- C2 witness: the three-record geometry file `pqrLinesA` parses to
`atomsA` and its aggregation yields one-row median and mean frames with
three-decimal coordinate strings. -/
theorem spec_c2_aggregate_single_row_three_decimals_witness :
    ∃ med mean,
      format_dataframe (seriesToFrameT (colMedians atomsA)) = .ok [med] ∧
      format_dataframe (seriesToFrameT (colMeans atomsA)) = .ok [mean] ∧
      ThreeDecimalString med.x ∧ ThreeDecimalString med.y ∧ ThreeDecimalString med.z ∧
      ThreeDecimalString mean.x ∧ ThreeDecimalString mean.y ∧ ThreeDecimalString mean.z :=
  spec_c2_aggregate_single_row_three_decimals pqrLinesA atomsA (by decide) (by decide)

/-- C3 witness: the CSV row `7,1.500,-2.750,0.000` converts to a HETATM
record whose fixed-column coordinate fields parse back to the original
values. -/
theorem spec_c3_csv_pdb_roundtrip_witness :
    ∃ pline, csv_to_pdb_line (mkCsvRow 7 1500 (-2750) 0) = .ok pline ∧
      parseFloatChars (pdbCoordFields pline).1 = some ((1500 : ℚ) / 1000) ∧
      parseFloatChars (pdbCoordFields pline).2.1 = some ((-2750 : ℚ) / 1000) ∧
      parseFloatChars (pdbCoordFields pline).2.2 = some ((0 : ℚ) / 1000) :=
  spec_c3_csv_pdb_roundtrip 7 1500 (-2750) 0 (by decide) (by decide) (by decide)
    (by decide) (by decide) (by decide) (by decide) (by decide)

/-- C4 counterexample: with no sentinel text and a successful tool run, an
uncaught exception from `get_best_pockets` (here: the selected pocket's
geometry file holds no marker record) makes the process exit with code 1,
refuting the claim's assertion of code 0 for every non-failure run. -/
theorem spec_c4_counterexample :
    containsSentinel (ToolEnv.stdout ⟨true, false, "fpocketR done", ""⟩) = false ∧
    containsSentinel (ToolEnv.stderr ⟨true, false, "fpocketR done", ""⟩) = false ∧
    run_fpocketR ⟨true, false, "fpocketR done", ""⟩ = some true ∧
    (mainEntry ⟨⟨true, false, "fpocketR done", ""⟩, fsEmptyPqr, none⟩).exitCode = 1 ∧
    (mainEntry ⟨⟨true, false, "fpocketR done", ""⟩, fsEmptyPqr, none⟩).exitCode ≠ 0 := by
  decide

/-- C4 witness: with the sentinel text in stdout the process exits 2 and the
working directory is removed; with clean output and a completed pipeline it
exits 0. -/
theorem spec_c4_exit_codes_witness :
    (mainEntry ⟨⟨true, false, "No Pockets Found", ""⟩, fsNoCsv, none⟩).exitCode = 2 ∧
    (mainEntry ⟨⟨true, false, "No Pockets Found", ""⟩, fsNoCsv, none⟩).workDirRemoved = true ∧
    (mainEntry ⟨⟨true, false, "all clear", ""⟩, fsNoCsv, none⟩).exitCode = 0 :=
  ⟨(spec_c4_exit_codes ⟨⟨true, false, "No Pockets Found", ""⟩, fsNoCsv, none⟩).1.mpr
      (Or.inl (by decide)),
    (spec_c4_exit_codes ⟨⟨true, false, "No Pockets Found", ""⟩, fsNoCsv, none⟩).2.2.2.2
      (Or.inl (by decide)),
    (spec_c4_exit_codes ⟨⟨true, false, "all clear", ""⟩, fsNoCsv, none⟩).2.1
      GBPOutcome.noCsv (by decide) (by decide) rfl⟩

/-- C5 witness: on a filesystem with an existing target directory but no
characteristics CSV, `get_best_pockets` silently returns `noCsv`. -/
theorem spec_c5_missing_csv_silent_witness :
    get_best_pockets fsNoCsv = .ok .noCsv ∧
      gbpWritten (get_best_pockets fsNoCsv) = [] ∧
      ∀ e, get_best_pockets fsNoCsv ≠ .error e :=
  spec_c5_missing_csv_silent fsNoCsv rfl rfl

/-- C6 counterexample: with no characteristics CSV in an existing target
directory the function returns the silent `noCsv` outcome and does not abort
the run, contradicting the claim that it aborts. -/
theorem spec_c6_counterexample :
    get_best_pockets fsNoCsvWithPqr = .ok .noCsv ∧
      gbpAborts (get_best_pockets fsNoCsvWithPqr) = false := by
  decide

/-- C6 witness: the amended claim at the same input: the condition is
reported as an early `noCsv` return, nothing is written, and the run is not
aborted. -/
theorem spec_c6_no_csv_reports_but_continues_witness :
    get_best_pockets fsNoCsvWithPqr = .ok .noCsv ∧
      gbpAborts (get_best_pockets fsNoCsvWithPqr) = false ∧
      gbpWritten (get_best_pockets fsNoCsvWithPqr) = [] :=
  spec_c6_no_csv_reports_but_continues fsNoCsvWithPqr rfl rfl

/-- C7 counterexample: on a run where all four metrics process pocket 1's
geometry file, there is a processed metric whose median row and mean row are
contained together in no written CSV file: the two summary rows are not
written to a single metric-named file. -/
theorem spec_c7_counterexample :
    ∃ t ∈ gbpResults (get_best_pockets fsAllPocket1),
      ¬ ∃ f ∈ gbpWritten (get_best_pockets fsAllPocket1),
        (rowLine t.2.1 ∈ f.2 ∧ rowLine t.2.2 ∈ f.2) := by
  decide

/-- C7 witness: the amended claim at the same input: each processed metric's
median row is written to `{metric}_median.csv` and its mean row to
`{metric}_mean.csv`. -/
theorem spec_c7_two_files_per_metric_witness :
    ∃ res wr, get_best_pockets fsAllPocket1 = .ok (.done res wr) ∧
      ∀ t ∈ res, (Metric.name t.1 ++ "_median.csv", csvLines t.2.1) ∈ wr ∧
        (Metric.name t.1 ++ "_mean.csv", csvLines t.2.2) ∈ wr :=
  spec_c7_two_files_per_metric fsAllPocket1 [⟨1, 1, 1, 1, 1⟩] [] rfl rfl
    (by decide) (by decide)

/-- C8 counterexample: a marker-prefixed line with six whitespace fields
whose field at position five is not a float literal makes `parse_pqr` raise a
value error, not the index error the claim asserts for every short line. -/
theorem spec_c8_counterexample :
    parse_pqr ["ATOM 1 C POL 1 q"] = .error .valueError ∧
      PyError.valueError ≠ PyError.indexError := by
  decide

/-- C8 witness: a marker-prefixed line with seven fields whose present
coordinate fields are float literals raises the index error. -/
theorem spec_c8_short_line_errors_witness :
    parse_pqr ["ATOM 1 C POL 1 1.000 2.000"] = .error .indexError :=
  spec_c8_short_line_errors.1 [] "ATOM 1 C POL 1 1.000 2.000" [] [] rfl
    (by decide) (by decide) (by decide)

/-- C9 witness: on a filesystem where the score metric's pocket 1 has no
geometry file while the other metrics' pocket 2 has one, score is omitted
from the results with no score-named files written, and the other metrics
are processed. -/
theorem spec_c9_missing_geometry_skipped_witness :
    ∃ res wr, get_best_pockets fsScoreMissing = .ok (.done res wr) ∧
      ∀ m p, bestPocket [⟨1, 10, 1, 1, 1⟩, ⟨2, 1, 10, 10, 10⟩] m = some p →
        (lookupPqr fsScoreMissing.pqrFiles (truncQ p) = none →
          (∀ t ∈ res, t.1 ≠ m) ∧
          ∀ f ∈ wr, f.1 ≠ Metric.name m ++ "_median.csv" ∧
            f.1 ≠ Metric.name m ++ "_mean.csv") ∧
        ∀ lines, lookupPqr fsScoreMissing.pqrFiles (truncQ p) = some lines →
          ∃ t ∈ res, t.1 = m :=
  spec_c9_missing_geometry_skipped fsScoreMissing [⟨1, 10, 1, 1, 1⟩, ⟨2, 1, 10, 10, 10⟩]
    [] rfl rfl (by decide) (by decide)

/-- C10 witness: on a filesystem whose selected pocket's geometry file holds
no marker-prefixed line, the file parses to the empty table, the aggregation
step raises a value error, and `get_best_pockets` propagates an exception. -/
theorem spec_c10_empty_geometry_errors_witness :
    parse_pqr ["REMARK nothing here"] = .ok [] ∧
    format_dataframe (seriesToFrameT (colMedians [])) = .error .valueError ∧
    ∃ e, get_best_pockets fsEmptyPqr = .error e :=
  spec_c10_empty_geometry_errors fsEmptyPqr [⟨1, 1, 1, 1, 1⟩] [] .score 1
    ["REMARK nothing here"] rfl rfl (by decide) (by decide) (by decide) (by decide)

end Concrete

end Claims

end FpocketR
